import Mathlib

/-!
Verification of the seeded supplier-generator component of the supplier-hub
repository.  The repository contains several variants of the generator; the
claims refer to three of them, each embedded here from its source:

* `SuppliersGeneratorPy` — `supplier-search-engine/backend/suppliers_generator.py`,
  class `SupplierGenerator` (5000 records, bounded-retry unique names);
* `AppPy` — `app.py`, function `generate_seed_suppliers` (500 records);
* `SuppliersPy` — `suppliers.py`, class `SupplierGenerator` (count parameter).

Randomness: every variant consumes `random.Random(seed).random()` draws in a
fixed order.  The embeddings are parameterised by a draw source
`next : s -> Rat x s` over an arbitrary state type, so that structural claims
are proved for every stream; the exact CPython Mersenne Twister stream is also
constructed below (`mtInit`, `mtRandom`) for concrete instantiations.
`StreamValid next` states that every draw lies in `[0, 1)`, which is what
`random()` guarantees.

CPython specifics captured by helper functions: `int()` truncation (`pyInt`),
`round(x, 1)` with round-half-to-even (`pyRound1`), list indexing with
negative-index wrap-around (`pyGet`), and the iteration order of a `set` of
strings, which depends on the per-process string-hash state (PYTHONHASHSEED);
`list(set(xs))` is therefore modelled by `pySetList`, parameterised by an
order `hashOrd` standing for that interpreter state.
-/

/-- Python `int()` applied to a rational: truncation toward zero. -/
def pyInt (q : ℚ) : ℤ := if q.num < 0 then -(Rat.floor (-q)) else Rat.floor q

/-- Python list indexing `xs[i]`: negative indices wrap from the end; an
out-of-range access (impossible under `StreamValid` in this development)
falls back to the default `d`. -/
def pyGet (xs : List α) (i : ℤ) (d : α) : α :=
  if 0 ≤ i then xs.getD i.toNat d
  else xs.getD (xs.length - i.natAbs) d

/-- Indexing by `int(q * len(xs))`, the idiom every generator variant uses. -/
def pyChoose (xs : List α) (q : ℚ) (d : α) : α :=
  pyGet xs (pyInt (q * xs.length)) d

/-- Python `s.split()[0]`: the first whitespace-separated word. -/
def firstWord (s : String) : String :=
  String.mk (s.data.takeWhile (fun c => c ≠ ' '))

/-- Python `s.lower()` on the ASCII data used here. -/
def pyLower (s : String) : String :=
  String.mk (s.data.map (fun c =>
    if 'A' ≤ c ∧ c ≤ 'Z' then Char.ofNat (c.toNat + 32) else c))

/-- Python `s.replace(" ", "")`: removal of every space. -/
def delSpaces (s : String) : String :=
  String.mk (s.data.filter (fun c => c ≠ ' '))

/-- Round-half-to-even on rationals, Python `round(q)`. -/
def rndHalfEven (q : ℚ) : ℤ :=
  if q - mkRat (Rat.floor q) 1 < mkRat 1 2 then Rat.floor q
  else if mkRat 1 2 < q - mkRat (Rat.floor q) 1 then Rat.floor q + 1
  else if Rat.floor q % 2 = 0 then Rat.floor q else Rat.floor q + 1

/-- Python `round(q, 1)` (one decimal place, half-to-even). -/
def pyRound1 (q : ℚ) : ℚ := mkRat (rndHalfEven (q * 10)) 10

/-- `list(set(xs))` for strings.  A CPython `set` iterates in an order
determined by the string-hash state of the running interpreter (randomised
per process by PYTHONHASHSEED); only the underlying set of elements is
process-independent.  The call is modelled as the distinct elements of `xs`
arranged by the order parameter `hashOrd` standing for that state. -/
def pySetList (hashOrd : String → ℕ) (xs : List String) : List String :=
  xs.dedup.mergeSort (fun a b => Nat.ble (hashOrd a) (hashOrd b))

/-- Validity of a draw source: every value a `random.Random.random()` stream
produces lies in `[0, 1)`. -/
def StreamValid {σ : Type} (next : σ → ℚ × σ) : Prop :=
  ∀ s : σ, 0 ≤ (next s).1 ∧ (next s).1 < 1

/-!  CPython Mersenne Twister (MT19937), bit-exact.  `random.Random(seed)`
for the integer seeds used here (`1962`) seeds via `init_by_array` with the
single 32-bit key word `seed`; `random()` combines two tempered outputs into
a 53-bit numerator.  The 624-word state is packed into one natural number
(lane `i` at bits `[32*i, 32*i+32)`), and the twist is vectorised over the
packed pool.  The implementation was checked word-for-word against CPython
for the first 1400 outputs of seed 1962, including states crossing several
twists, and against exact `random()` values. -/

def mtOnes : ℕ := ((1 <<< 19968) - 1) / 4294967295

def mtHiLanes : ℕ := 2147483648 * mtOnes

def mtLoLanes : ℕ := 2147483647 * mtOnes

def mtMask227 : ℕ := (1 <<< 7264) - 1

def mtMask169 : ℕ := (1 <<< 5408) - 1

/-- One MT "twist" (generation of the next 624 words), vectorised over the
packed pool: phase splits follow the in-place update order of the reference
loop, so writes that read already-updated entries are honoured. -/
def twistPool (P : ℕ) : ℕ :=
  let Y := Nat.lor (Nat.land P mtHiLanes) (Nat.land (P >>> 32) mtLoLanes)
  let TY := Nat.xor (Nat.land (Y >>> 1) mtLoLanes) ((Nat.land Y mtOnes) * 2567483615)
  let N1 := Nat.xor (Nat.land (P >>> 12704) mtMask227) (Nat.land TY mtMask227)
  let S2a := Nat.xor N1 (Nat.land (TY >>> 7264) mtMask227)
  let S2b := Nat.xor (Nat.land S2a mtMask169) (Nat.land (TY >>> 14528) mtMask169)
  let n0 := Nat.land N1 4294967295
  let a623 := P >>> 19936
  let y623 := Nat.lor (Nat.land a623 2147483648) (Nat.land n0 2147483647)
  let t623 := Nat.xor (y623 >>> 1) ((Nat.land y623 1) * 2567483615)
  let n396 := Nat.land (S2a >>> 5408) 4294967295
  let w623 := Nat.xor n396 t623
  Nat.lor (Nat.lor (Nat.lor N1 (S2a <<< 7264)) (S2b <<< 14528)) (w623 <<< 19936)

/-- init_genrand tail: words from index `i` on, given the previous word. -/
def igFrom (prev i : ℕ) : ℕ → List ℕ
  | 0 => []
  | n+1 =>
    let w := (1812433253 * (Nat.xor prev (prev >>> 30)) + i) % 4294967296
    if w % 2 = 0 then w :: igFrom w (i+1) n else w :: igFrom w (i+1) n

def initGenrand (s : ℕ) : List ℕ := s :: igFrom s 1 623

/-- First mixing pass of init_by_array (single-word key `kv`), as a zipper over
the state list; `doneRev` holds entries before index `i` in reverse. -/
def iba1 (kv : ℕ) (doneRev todo : List ℕ) : ℕ → List ℕ
  | 0 => doneRev.reverse ++ todo
  | n+1 =>
    match todo, doneRev with
    | cur :: rest, prev :: _ =>
      let w := ((Nat.xor cur ((Nat.xor prev (prev >>> 30)) * 1664525 % 4294967296)) + kv) % 4294967296
      if w % 2 = 0 then
        match rest with
        | [] =>
          match (w :: doneRev).reverse with
          | _ :: others => iba1 kv [w] others n
          | [] => []
        | _ :: _ => iba1 kv (w :: doneRev) rest n
      else
        match rest with
        | [] =>
          match (w :: doneRev).reverse with
          | _ :: others => iba1 kv [w] others n
          | [] => []
        | _ :: _ => iba1 kv (w :: doneRev) rest n
    | _, _ => doneRev.reverse ++ todo

/-- Second mixing pass of init_by_array (the `- i` pass), with the same
wrap-around at index 623 as the first pass; `i` is the running index. -/
def iba2 (doneRev todo : List ℕ) (i : ℕ) : ℕ → List ℕ
  | 0 => doneRev.reverse ++ todo
  | n+1 =>
    match todo, doneRev with
    | cur :: rest, prev :: _ =>
      let w := ((Nat.xor cur ((Nat.xor prev (prev >>> 30)) * 1566083941 % 4294967296)) + 4294967296 - i) % 4294967296
      if w % 2 = 0 then
        match rest with
        | [] =>
          match (w :: doneRev).reverse with
          | _ :: others => iba2 [w] others 1 n
          | [] => []
        | _ :: _ => iba2 (w :: doneRev) rest (i+1) n
      else
        match rest with
        | [] =>
          match (w :: doneRev).reverse with
          | _ :: others => iba2 [w] others 1 n
          | [] => []
        | _ :: _ => iba2 (w :: doneRev) rest (i+1) n
    | _, _ => doneRev.reverse ++ todo

def packPool : List ℕ → ℕ
  | [] => 0
  | w :: ws => w + ((packPool ws) <<< 32)

/-- The seeded state list for a single-word seed, per CPython init_by_array:
pass 1 runs 624 updates from index 1 (wrapping at 623), pass 2 runs 623
updates continuing at index 2, then entry 0 is forced to 0x80000000. -/
def mtSeedList (seed : ℕ) : List ℕ :=
  let base := initGenrand 19650218
  match base with
  | m0 :: rest =>
    let afterPass1 := iba1 seed [m0] rest 624
    match afterPass1 with
    | a0 :: a1 :: rest1 =>
      let afterPass2 := iba2 [a1, a0] rest1 2 623
      match afterPass2 with
      | _ :: rest2 => 2147483648 :: rest2
      | [] => []
    | _ => []
  | [] => []

structure MTState where
  pool : ℕ
  idx : ℕ

def mtInit (seed : ℕ) : MTState := ⟨packPool (mtSeedList seed), 624⟩

/-- One raw 32-bit MT output with tempering. -/
def mtNextRaw (s : MTState) : ℕ × MTState :=
  let p := if s.idx ≥ 624 then twistPool s.pool else s.pool
  let i := if s.idx ≥ 624 then 0 else s.idx
  let y0 := Nat.land (p >>> (32 * i)) 4294967295
  let y1 := Nat.xor y0 (y0 >>> 11)
  let y2 := Nat.xor y1 (Nat.land (y1 <<< 7) 2636928640)
  let y3 := Nat.xor y2 (Nat.land (y2 <<< 15) 4022730752)
  let y4 := Nat.xor y3 (y3 >>> 18)
  (y4, ⟨p, i + 1⟩)

/-- CPython's random(): two raw words combined into a 53-bit numerator. -/
def mtRandom (s : MTState) : ℚ × MTState :=
  let (o1, s1) := mtNextRaw s
  let (o2, s2) := mtNextRaw s1
  (mkRat ((o1 >>> 5) * 67108864 + (o2 >>> 6) : ℕ) 9007199254740992, s2)


namespace AppPy

/-!  Embedding of `generate_seed_suppliers` from `app.py` (lines 78-146).
`SeededRandom(1962)` is constructed once at the top of the function, so one
invocation is one run over a freshly seeded stream. -/

def product_categories : List (String × List String) :=
  [("Lumber & Wood Products", ["2x4 Lumber", "Plywood", "Particle Board", "MDF", "Hardwood Flooring"]),
   ("Concrete & Masonry", ["Portland Cement", "Ready-Mix Concrete", "Cinder Blocks", "Bricks"]),
   ("Steel & Metal", ["Steel Beams", "Rebar", "Steel Pipe", "Aluminum Siding"]),
   ("Electrical Supplies", ["Electrical Wire", "Outlets", "Light Fixtures", "Circuit Breakers"]),
   ("Plumbing Supplies", ["PVC Pipe", "Copper Pipe", "Faucets", "Valves"]),
   ("HVAC Equipment", ["Air Conditioning Units", "Furnaces", "Heat Pumps", "Ductwork"]),
   ("Roofing Materials", ["Asphalt Shingles", "Metal Roofing", "Tar & Gravel"]),
   ("Windows & Doors", ["Vinyl Windows", "Wood Doors", "Sliding Glass Doors"]),
   ("Paint & Finishes", ["Interior Paint", "Exterior Paint", "Primer", "Stain"]),
   ("Hardware & Fasteners", ["Nails", "Screws", "Bolts", "Hinges"])]

def adjectives : List String :=
  ["Premier", "Elite", "Pro", "Superior", "Quality", "Reliable", "National", "Metro", "Allied", "United"]

def cities : List (String × String) :=
  [("New York", "NY"), ("Los Angeles", "CA"), ("Chicago", "IL"), ("Houston", "TX"),
   ("Dallas", "TX"), ("Denver", "CO"), ("Seattle", "WA"), ("Atlanta", "GA"),
   ("Miami", "FL"), ("Boston", "MA")]

/-- One generated record of `generate_seed_suppliers`. -/
structure SeedSupplier where
  id : ℕ
  name : String
  category : String
  location : String
  region : String
  rating : ℚ
  aiScore : ℤ
  products : List String
  certifications : List String
  walmartVerified : Bool
  yearsInBusiness : ℤ
  projectsCompleted : ℤ
deriving DecidableEq

/-- The raw product draws `[products[int(r*len)] for _ in range(n)]`
(duplicates kept; `list(set(...))` is applied afterwards). -/
def drawProducts {σ : Type} (next : σ → ℚ × σ) (prods : List String) :
    ℕ → σ → List String × σ
  | 0, s => ([], s)
  | n+1, s =>
    let d := next s
    let p := pyChoose prods d.1 ""
    let rest := drawProducts next prods n d.2
    (p :: rest.1, rest.2)

/-- The body of the inner loop of `generate_seed_suppliers` (lines 122-144):
one supplier record, in the exact draw order of the source. -/
def genRecord {σ : Type} (hashOrd : String → ℕ) (next : σ → ℚ × σ)
    (cat : String) (prods : List String) (sid : ℕ) (s : σ) : SeedSupplier × σ :=
  let d1 := next s
  let adj := pyChoose adjectives d1.1 ""
  let d2 := next d1.2
  let city_data := pyChoose cities d2.1 ("", "")
  let d3 := next d2.2
  let num_products := pyInt (d3.1 * 3) + 2
  let dp := drawProducts next prods num_products.toNat d3.2
  let supplier_products := dp.1
  let d5 := next dp.2
  let rating := pyRound1 (d5.1 * 3/2 + 7/2)
  let d6 := next d5.2
  let aiScore := pyInt (d6.1 * 30 + 70)
  let d7 := next d6.2
  let walmart := decide (d7.1 > 2/5)
  let d8 := next d7.2
  let years := pyInt (d8.1 * 40 + 5)
  let d9 := next d8.2
  let projects := pyInt (d9.1 * 5000 + 100)
  ({ id := sid
     name := adj ++ " " ++ firstWord cat ++ " Supply Inc."
     category := cat
     location := city_data.1 ++ ", " ++ city_data.2
     region := city_data.2
     rating := rating
     aiScore := aiScore
     products := pySetList hashOrd supplier_products
     certifications := ["ISO 9001", "EPA Certified"]
     walmartVerified := walmart
     yearsInBusiness := years
     projectsCompleted := projects }, d9.2)

/-- `for i in range(n)` around `genRecord`, threading the id counter. -/
def catLoop {σ : Type} (hashOrd : String → ℕ) (next : σ → ℚ × σ)
    (cat : String) (prods : List String) :
    ℕ → ℕ → σ → List SeedSupplier × ℕ × σ
  | 0, sid, s => ([], sid, s)
  | n+1, sid, s =>
    let r := genRecord hashOrd next cat prods sid s
    let rest := catLoop hashOrd next cat prods n (sid+1) r.2
    (r.1 :: rest.1, rest.2)

/-- The outer `for category, products in product_categories.items()` loop. -/
def catFold {σ : Type} (hashOrd : String → ℕ) (next : σ → ℚ × σ) :
    List (String × List String) → ℕ → σ → List SeedSupplier × ℕ × σ
  | [], sid, s => ([], sid, s)
  | (cat, prods) :: rest, sid, s =>
    let thisCat := catLoop hashOrd next cat prods 50 sid s
    let others := catFold hashOrd next rest thisCat.2.1 thisCat.2.2
    (thisCat.1 ++ others.1, others.2)

/-- `generate_seed_suppliers` of `app.py`: 50 records for each of the 10
categories, ids counted from 1, all draws from the single stream begun at
state `s`. -/
def generate_seed_suppliers {σ : Type} (hashOrd : String → ℕ)
    (next : σ → ℚ × σ) (s : σ) : List SeedSupplier :=
  (catFold hashOrd next product_categories 1 s).1

end AppPy

namespace SuppliersGeneratorPy

/-!  Embedding of class `SupplierGenerator` from
`supplier-search-engine/backend/suppliers_generator.py`.  The constructor
(lines 22-23) seeds one `SeededRandom(1962)` held by the instance; the
whole of `generate_suppliers` (lines 81-160) threads that single stream, so
the embedding takes a stream state and also returns the state left behind
for any subsequent call on the same instance. -/

def product_categories : List (String × List String) :=
  [("Lumber & Wood Products", ["2x4 Lumber", "Plywood", "Particle Board", "MDF", "Hardwood Flooring", "Cedar Shingles"]),
   ("Concrete & Masonry", ["Portland Cement", "Ready-Mix Concrete", "Cinder Blocks", "Bricks", "Gravel", "Sand"]),
   ("Steel & Metal", ["Steel Beams", "Rebar", "Steel Pipe", "Aluminum Siding", "Metal Roofing", "Wire Mesh"]),
   ("Electrical Supplies", ["Electrical Wire", "Outlets", "Light Fixtures", "Circuit Breakers", "Conduit", "Switches"]),
   ("Plumbing Supplies", ["PVC Pipe", "Copper Pipe", "Faucets", "Valves", "Toilets", "Sink Fixtures"]),
   ("HVAC Equipment", ["Air Conditioning Units", "Furnaces", "Heat Pumps", "Ductwork", "Thermostats", "Insulation"]),
   ("Roofing Materials", ["Asphalt Shingles", "Metal Roofing", "Tar & Gravel", "Underlayment", "Flashing", "Gutters"]),
   ("Windows & Doors", ["Vinyl Windows", "Wood Doors", "Sliding Glass Doors", "Storm Windows", "Hardware", "Weather Stripping"]),
   ("Paint & Finishes", ["Interior Paint", "Exterior Paint", "Primer", "Stain", "Polyurethane", "Caulk"]),
   ("Hardware & Fasteners", ["Nails", "Screws", "Bolts", "Hinges", "Locks", "Tools"])]

def certifications : List String :=
  ["ISO 9001", "ISO 14001", "OSHA Certified", "EPA Certified",
   "NSF Certified", "UL Listed", "ANSI Certified", "Green Building",
   "Walmart Supplier Standards", "WBE Certified"]

def company_sizes : List String :=
  ["Small (1-50)", "Medium (51-250)", "Large (251-1000)", "Enterprise (1000+)"]

def price_ranges : List String :=
  ["Budget ($)", "Mid-Range ($$)", "Premium ($$$)", "Enterprise ($$$$)"]

def company_types : List String :=
  ["Inc.", "LLC", "Corp.", "Co.", "Supply Co.", "Distributors", "Materials",
   "Solutions", "Industries", "Group", "Enterprises", "Services", "Systems", "Technologies"]

def adjectives : List String :=
  ["Premier", "Elite", "Pro", "Superior", "Quality", "Reliable", "National", "Metro",
   "Coastal", "Summit", "Precision", "BuildRight", "Apex", "Pioneer", "TruValue",
   "First Choice", "Top Tier", "Allied", "United", "Global", "Platinum", "Diamond",
   "Crown", "Ace", "Master", "Prime", "Advantage", "American", "Industrial",
   "Commercial", "Advanced", "Superior", "Dynamic", "Innovative", "Strategic",
   "Certified", "Professional", "Executive", "Specialist", "Expert", "Mega",
   "Ultra", "Super", "Best", "Direct", "Express", "Rapid", "Swift", "Instant", "Quick"]

def cities : List (String × String × String) :=
  [("New York", "NY", "Northeast"), ("Los Angeles", "CA", "West"),
   ("Chicago", "IL", "Midwest"), ("Houston", "TX", "Southwest"),
   ("Phoenix", "AZ", "Southwest"), ("Philadelphia", "PA", "Northeast"),
   ("San Antonio", "TX", "Southwest"), ("San Diego", "CA", "West"),
   ("Dallas", "TX", "Southwest"), ("San Jose", "CA", "West"),
   ("Austin", "TX", "Southwest"), ("Jacksonville", "FL", "Southeast"),
   ("Fort Worth", "TX", "Southwest"), ("Columbus", "OH", "Midwest"),
   ("Charlotte", "NC", "Southeast"), ("Seattle", "WA", "West"),
   ("Denver", "CO", "West"), ("Boston", "MA", "Northeast"),
   ("Portland", "OR", "West"), ("Las Vegas", "NV", "West"),
   ("Detroit", "MI", "Midwest"), ("Memphis", "TN", "Southeast"),
   ("Baltimore", "MD", "Northeast"), ("Milwaukee", "WI", "Midwest"),
   ("Atlanta", "GA", "Southeast"), ("Miami", "FL", "Southeast"),
   ("Indianapolis", "IN", "Midwest"), ("Kansas City", "MO", "Midwest"),
   ("Minneapolis", "MN", "Midwest"), ("Raleigh", "NC", "Southeast")]

/-- A generated record: the dict built at lines 129-155 of the source. -/
structure Supplier where
  id : ℕ
  name : String
  description : String
  website : String
  email : String
  phone : String
  address : String
  city : String
  state : String
  category : String
  products : List String
  location : String
  region : String
  rating : ℚ
  aiScore : ℤ
  certifications : List String
  size : String
  priceRange : String
  yearsInBusiness : ℤ
  projectsCompleted : ℤ
  walmartVerified : Bool
  employees : ℤ
  responseTime : String
  minOrder : String
  paymentTerms : String
deriving DecidableEq

/-- The set of already used names (`used_names = set()`). -/
abbrev Used := Batteries.RBSet String compare

/-- The name-generation `while attempts < 20` loop (lines 91-107).  Each
iteration draws an adjective and a company type; it breaks as soon as the
composed name is unused, and otherwise, once `attempts` exceeds 10, breaks
with a numeric `#` suffix drawn from the same stream.  Returns the final
`adj` (which lines 133-134 reuse), the chosen name, and the final value of
`attempts`.  A call with `attempts >= 20` corresponds to the never-executed
loop body, where the source would leave `supplier_name = None`. -/
def nameLoop {σ : Type} (next : σ → ℚ × σ) (category_short : String)
    (used : Used) (attempts : ℕ) (s : σ) : String × String × ℕ × σ :=
  if _h : attempts < 20 then
    let d1 := next s
    let adj := pyChoose adjectives d1.1 ""
    let d2 := next d1.2
    let type_suffix := pyChoose company_types d2.1 ""
    let supplier_name := adj ++ " " ++ category_short ++ " " ++ type_suffix
    let attempts1 := attempts + 1
    if ¬ used.contains supplier_name then (adj, supplier_name, attempts1, d2.2)
    else if attempts1 > 10 then
      let d3 := next d2.2
      (adj, supplier_name ++ " #" ++ toString (pyInt (d3.1 * 999 + 1)), attempts1, d3.2)
    else nameLoop next category_short used attempts1 d2.2
  else ("", "", attempts, s)
termination_by 20 - attempts

/-- The duplicate-discarding sampling loops for products (lines 113-118) and
certifications (lines 121-126): draw `n` times from `pool`, appending a draw
only when it is not already present. -/
def dedupDraw {σ : Type} (next : σ → ℚ × σ) (pool : List String) :
    ℕ → List String → σ → List String × σ
  | 0, acc, s => (acc, s)
  | n+1, acc, s =>
    let d := next s
    let p := pyChoose pool d.1 ""
    dedupDraw next pool n (if p ∈ acc then acc else acc ++ [p]) d.2

/-- Thousands grouping of `f"{x:,}"` for the natural numbers produced at
line 153 (`ds` is the reversed digit list). -/
def commaGroupRev (ds : List Char) : List Char :=
  if h : ds.length ≤ 3 then ds
  else ds.take 3 ++ [','] ++ commaGroupRev (ds.drop 3)
termination_by ds.length
decreasing_by simp; omega

def commaFmt (n : ℕ) : String :=
  String.mk (commaGroupRev (Nat.repr n).data.reverse).reverse

/-- One supplier record (loop body, lines 90-158), drawing in exactly the
order of the source: name loop, city, products, certifications, then the
dict literal fields left to right. -/
def genRecord {σ : Type} (next : σ → ℚ × σ) (cat : String)
    (products : List String) (used : Used) (sid : ℕ) (s : σ) :
    Supplier × Used × σ :=
  let category_short := firstWord cat
  let nm := nameLoop next category_short used 0 s
  let adj := nm.1
  let supplier_name := nm.2.1
  let used1 := used.insert supplier_name
  let dc := next nm.2.2.2
  let city_data := pyChoose cities dc.1 ("", "", "")
  let dn := next dc.2
  let num_products := pyInt (dn.1 * 5) + 2
  let dp := dedupDraw next products num_products.toNat [] dn.2
  let supplier_products := dp.1
  let dm := next dp.2
  let num_certs := pyInt (dm.1 * 3) + 1
  let dq := dedupDraw next certifications num_certs.toNat [] dm.2
  let supplier_certs := dq.1
  let dd := next dq.2
  let years1 := pyInt (dd.1 * 40 + 5)
  let de := next dd.2
  let email_user := pyChoose ["sales", "info", "contact", "support"] de.1 ""
  let dp1 := next de.2
  let ph1 := pyInt (dp1.1 * 900 + 200)
  let dp2 := next dp1.2
  let ph2 := pyInt (dp2.1 * 900 + 200)
  let dp3 := next dp2.2
  let ph3 := pyInt (dp3.1 * 9000 + 1000)
  let da1 := next dp3.2
  let addr_num := pyInt (da1.1 * 9000 + 1000)
  let da2 := next da1.2
  let street := pyChoose ["Main", "Oak", "Maple", "Industrial", "Commerce", "Market", "Park", "Center"] da2.1 ""
  let da3 := next da2.2
  let street_type := pyChoose ["Street", "Avenue", "Boulevard", "Drive", "Way", "Road"] da3.1 ""
  let dr := next da3.2
  let rating := pyRound1 (dr.1 * 3/2 + 7/2)
  let ds := next dr.2
  let aiScore := pyInt (ds.1 * 30 + 70)
  let dz := next ds.2
  let size := pyChoose company_sizes dz.1 ""
  let dx := next dz.2
  let priceRange := pyChoose price_ranges dx.1 ""
  let dy := next dx.2
  let yearsInBusiness := pyInt (dy.1 * 40 + 5)
  let dj := next dy.2
  let projectsCompleted := pyInt (dj.1 * 5000 + 100)
  let dw := next dj.2
  let walmartVerified := decide (dw.1 > 7/10)
  let dv := next dw.2
  let employees := pyInt (dv.1 * 900 + 50)
  let dt := next dv.2
  let response_hours := pyInt (dt.1 * 24 + 1)
  let dO := next dt.2
  let min_order := pyInt (dO.1 * 50 + 10) * 100
  let dg := next dO.2
  let paymentTerms := pyChoose ["Net 30", "Net 60", "2/10 Net 30", "Credit Card", "COD"] dg.1 ""
  ({ id := sid
     name := supplier_name
     description := "Leading provider of " ++ pyLower cat ++ " with over " ++
       toString years1 ++ " years of experience. We specialize in delivering high-quality construction materials to commercial and residential projects across the " ++
       city_data.2.2 ++ " region. Our commitment to customer satisfaction and competitive pricing has made us a trusted partner for contractors and builders nationwide."
     website := "https://www." ++ delSpaces (pyLower adj) ++ pyLower category_short ++ ".com"
     email := email_user ++ "@" ++ delSpaces (pyLower adj) ++ pyLower category_short ++ ".com"
     phone := "(" ++ toString ph1 ++ ") " ++ toString ph2 ++ "-" ++ toString ph3
     address := toString addr_num ++ " " ++ street ++ " " ++ street_type
     city := city_data.1
     state := city_data.2.1
     category := cat
     products := supplier_products
     location := city_data.1 ++ ", " ++ city_data.2.1
     region := city_data.2.2
     rating := rating
     aiScore := aiScore
     certifications := supplier_certs
     size := size
     priceRange := priceRange
     yearsInBusiness := yearsInBusiness
     projectsCompleted := projectsCompleted
     walmartVerified := walmartVerified
     employees := employees
     responseTime := toString response_hours ++ " hours"
     minOrder := "$" ++ commaFmt min_order.toNat
     paymentTerms := paymentTerms }, used1, dg.2)

end SuppliersGeneratorPy

namespace SuppliersGeneratorPy

/-- The `for i in range(suppliers_per_category)` loop, threading the used-name
set, the id counter and the stream. -/
def catLoop {σ : Type} (next : σ → ℚ × σ) (cat : String) (prods : List String) :
    ℕ → Used → ℕ → σ → List Supplier × Used × ℕ × σ
  | 0, used, sid, s => ([], used, sid, s)
  | n+1, used, sid, s =>
    let r := genRecord next cat prods used sid s
    let rest := catLoop next cat prods n r.2.1 (sid+1) r.2.2
    (r.1 :: rest.1, rest.2)

/-- The outer `for category, products in self.product_categories.items()`
loop; `suppliers_per_category = 5000 // len(self.product_categories)`. -/
def catFold {σ : Type} (next : σ → ℚ × σ) :
    List (String × List String) → Used → ℕ → σ → List Supplier × Used × ℕ × σ
  | [], used, sid, s => ([], used, sid, s)
  | (cat, prods) :: rest, used, sid, s =>
    let suppliers_per_category := 5000 / product_categories.length
    let thisCat := catLoop next cat prods suppliers_per_category used sid s
    let others := catFold next rest thisCat.2.1 thisCat.2.2.1 thisCat.2.2.2
    (thisCat.1 ++ others.1, others.2)

/-- `generate_suppliers` (lines 81-160): the full pass over all categories,
starting from an empty `used_names` set and `supplier_id = 1`.  The returned
state is the instance stream state after the call, which a second call on
the same instance continues from. -/
def generate_suppliers {σ : Type} (next : σ → ℚ × σ) (s : σ) :
    List Supplier × σ :=
  let all := catFold next product_categories Batteries.RBSet.empty 1 s
  (all.1, all.2.2.2)

/-- The constructor `__init__` (lines 22-23): the instance stream is seeded
exactly once, with 1962. -/
def newInstanceState : MTState := mtInit 1962

end SuppliersGeneratorPy

namespace SuppliersPy

/-!  Embedding of `SupplierGenerator.generate_suppliers(count)` from
`suppliers.py` (lines 73-138).  This variant drives `random.Random(1962)`
through `randint` / `choice` / `sample` / `uniform` / `random`.  Those
CPython methods consume the underlying Mersenne Twister through different
internal paths than `random()`; they are modelled here as single-draw
transformations of the abstract stream.  Every claim proved about this
variant (output length, the id sequence, absence of any error path) holds
for every stream and is independent of both the values drawn and the number
of draws consumed, so this modelling choice cannot affect any verdict. -/

def product_categories : List (String × List String) :=
  [("Lumber & Wood Products", ["2x4 Lumber", "Plywood", "Particle Board", "MDF", "Hardwood Flooring", "Pressure Treated Wood", "Composite Decking", "Cedar Shingles"]),
   ("Concrete & Masonry", ["Portland Cement", "Ready-Mix Concrete", "Cinder Blocks", "Bricks", "Concrete Pavers", "Retaining Wall Blocks", "Mortar Mix", "Concrete Sealers"]),
   ("Steel & Metal", ["Steel Beams", "Rebar", "Steel Pipe", "Aluminum Siding", "Corrugated Metal", "Steel Roofing", "Metal Studs", "Angle Iron"]),
   ("Electrical Supplies", ["Electrical Wire", "Outlets", "Light Fixtures", "Circuit Breakers", "Conduit", "Switch Plates", "Transformers", "Panel Boards"]),
   ("Plumbing Supplies", ["PVC Pipe", "Copper Pipe", "Faucets", "Valves", "Shut-Off Valves", "Water Heaters", "Drain Cleanout", "Plumbing Fixtures"]),
   ("HVAC Equipment", ["Air Conditioning Units", "Furnaces", "Heat Pumps", "Ductwork", "Thermostats", "Refrigerant", "HVAC Filters", "Compressors"]),
   ("Roofing Materials", ["Asphalt Shingles", "Metal Roofing", "Tar & Gravel", "Roof Underlayment", "Ridge Caps", "Roof Vents", "Flashing", "Roofing Nails"]),
   ("Windows & Doors", ["Vinyl Windows", "Wood Doors", "Sliding Glass Doors", "Garage Doors", "Exterior Doors", "Interior Doors", "Window Frames", "Door Hinges"]),
   ("Paint & Finishes", ["Interior Paint", "Exterior Paint", "Primer", "Stain", "Polyurethane", "Epoxy Paint", "Sealers", "Paint Thinner"]),
   ("Hardware & Fasteners", ["Nails", "Screws", "Bolts", "Anchors", "Hinges", "Latches", "Handles", "Brackets"])]

def regions : List String :=
  ["Northeast", "Southeast", "Midwest", "Southwest", "West Coast",
   "Pacific", "Mountain", "Great Plains", "South Central"]

def certifications : List String :=
  ["ISO 9001", "ISO 14001", "OSHA Certified", "EPA Certified",
   "UL Listed", "CSA Certified", "NSF Certified", "LEED Certified",
   "RoHS Compliant", "ITAR Registered"]

def company_prefixes : List String :=
  ["Advanced", "Allied", "American", "Anderson", "Austin", "Baker",
   "Benson", "Best", "Big", "Blue", "Border", "Bradford", "Bright",
   "Bristol", "Brown", "Builders", "Capital", "Cardinal", "Central",
   "Century", "Champion", "Coastal", "Columbia", "Commercial", "Complete",
   "Consolidated", "Construction", "Continental", "Cooper", "Cornerstone",
   "Corporate", "Craftsman", "Creative", "Crown", "Crystal", "Custom",
   "Dakota", "Dayton", "Delta", "Denver", "Diamond", "Diversified",
   "East", "Eastern", "Economy", "Electrical", "Elite", "Emery",
   "Empire", "Enterprise", "Epic", "Essential", "Estelle", "Eternal",
   "Evergreen", "Excellence", "Excellent", "Executive", "Expo", "Express"]

def company_suffixes : List String :=
  ["Supply", "Supplies", "Company", "Corporation", "Industries", "Inc",
   "LLC", "Materials", "Group", "Distributors", "Traders", "Wholesale",
   "Retail", "Sales", "Services", "Solutions", "Systems", "Tech",
   "Technologies", "Tools", "Trade", "Trading", "Works", "Workshop"]

structure PySupplier where
  id : ℕ
  name : String
  category : String
  region : String
  location : String
  rating : ℚ
  aiScore : ℤ
  products : List String
  certifications : List String
  employeeCount : ℤ
  yearFounded : ℤ
  verified : Bool
  description : String
deriving DecidableEq

/-- Model of `Random.randint(a, b)`: one draw scaled into `[a, b]`. -/
def randint {σ : Type} (next : σ → ℚ × σ) (a b : ℤ) (s : σ) : ℤ × σ :=
  let d := next s
  (a + pyInt (d.1 * (b - a + 1)), d.2)

/-- Model of `Random.choice(xs)`: one draw used as an index. -/
def choice {σ : Type} (next : σ → ℚ × σ) (xs : List α) (dflt : α) (s : σ) : α × σ :=
  let d := next s
  (pyChoose xs d.1 dflt, d.2)

/-- Model of `Random.sample(pool, k)`: `k` draws without replacement. -/
def sampleAux {σ : Type} (next : σ → ℚ × σ) :
    ℕ → List String → σ → List String × σ
  | 0, _, s => ([], s)
  | k+1, pool, s =>
    let d := next s
    let i := (pyInt (d.1 * pool.length)).toNat
    let p := pool.getD i ""
    let rest := sampleAux next k (pool.eraseIdx i) d.2
    (p :: rest.1, rest.2)

/-- Model of `Random.uniform(a, b)`: one draw scaled into `[a, b]`. -/
def uniform {σ : Type} (next : σ → ℚ × σ) (a b : ℚ) (s : σ) : ℚ × σ :=
  let d := next s
  (a + d.1 * (b - a), d.2)

/-- The loop body of `generate_suppliers` (lines 97-136), draws in source
order; `i` is the zero-based loop index, the record id is `i + 1`. -/
def genRecord {σ : Type} (next : σ → ℚ × σ) (i : ℕ) (s : σ) : PySupplier × σ :=
  let w1 := randint next 0 (company_prefixes.length - 1) s
  let pfx := pyGet company_prefixes w1.1 ""
  let w2 := randint next 0 (company_suffixes.length - 1) w1.2
  let sfx := pyGet company_suffixes w2.1 ""
  let name := pfx ++ " " ++ sfx
  let w3 := choice next (product_categories.map Prod.fst) "" w2.2
  let category := w3.1
  let catProducts := ((product_categories.filter (fun p => p.1 = category)).headD ("", [])).2
  let w4 := randint next 2 5 w3.2
  let w5 := sampleAux next w4.1.toNat catProducts w4.2
  let products := w5.1
  let w6 := choice next regions "" w5.2
  let region := w6.1
  let w7 := randint next 0 3 w6.2
  let w8 := sampleAux next w7.1.toNat certifications w7.2
  let certs := w8.1
  let w9 := uniform next (5/2) 5 w8.2
  let rating := pyRound1 w9.1
  let w10 := randint next 65 98 w9.2
  let ai_score := w10.1
  let w11 := choice next ([10, 25, 50, 100, 250, 500, 1000, 5000] : List ℤ) 0 w10.2
  let employee_count := w11.1
  let w12 := randint next 1950 2020 w11.2
  let year_founded := w12.1
  let w13 := next w12.2
  let verified := decide (w13.1 < 3/10)
  let w14 := choice next ["Cleveland", "Memphis", "Des Moines", "Austin", "Portland", "Denver", "Phoenix", "Atlanta", "Chicago", "Dallas"] "" w13.2
  let lcity := w14.1
  ({ id := i + 1
     name := name
     category := category
     region := region
     location := lcity ++ ", " ++ region
     rating := rating
     aiScore := ai_score
     products := products
     certifications := certs
     employeeCount := employee_count
     yearFounded := year_founded
     verified := verified
     description := "Leading supplier of " ++ String.intercalate ", " (products.take 2) ++
       " with " ++ toString employee_count ++ " employees since " ++ toString year_founded ++ "." }, w14.2)

/-- `for i in range(count)`: `n` is the number of remaining iterations and
`i` the current index. -/
def genLoop {σ : Type} (next : σ → ℚ × σ) : ℕ → ℕ → σ → List PySupplier × σ
  | 0, _, s => ([], s)
  | n+1, i, s =>
    let r := genRecord next i s
    let rest := genLoop next n (i+1) r.2
    (r.1 :: rest.1, rest.2)

/-- `generate_suppliers(count)` (line 73).  `count` is an arbitrary integer;
`range(count)` is empty whenever `count <= 0`.  The `Except` layer makes the
raise-versus-return distinction of the Python function observable: the body
of the source contains no validation and no `raise`, so every branch below
is `Except.ok`. -/
def generate_suppliers {σ : Type} (next : σ → ℚ × σ) (count : ℤ) (s : σ) :
    Except String (List PySupplier) :=
  Except.ok (genLoop next count.toNat 0 s).1

end SuppliersPy

/-!  Concrete draw sources used for counterexamples and witnesses. -/

/-- A draw source reading from an explicit list (0 once exhausted). -/
def listStream : List ℚ → ℚ × List ℚ := fun l => (l.headD 0, l.tail)

/-- The all-zero draw source. -/
def zeroStream : Unit → ℚ × Unit := fun _ => (0, ())

namespace AppPy

/-- Inhabitant used as the `getD` default in witness statements. -/
def dflt : SeedSupplier :=
  { id := 0, name := "", category := "", location := "", region := "", rating := 0,
    aiScore := 0, products := [], certifications := [], walmartVerified := false,
    yearsInBusiness := 0, projectsCompleted := 0 }

/-- Every field of a record except `products` (whose internal order is the
one interpreter-dependent part of a record). -/
def SeedSupplier.core (r : SeedSupplier) :
    ℕ × String × String × String × String × ℚ × ℤ × List String × Bool × ℤ × ℤ :=
  (r.id, r.name, r.category, r.location, r.region, r.rating, r.aiScore,
   r.certifications, r.walmartVerified, r.yearsInBusiness, r.projectsCompleted)

end AppPy

namespace SuppliersGeneratorPy

/-- Inhabitant used as the `getD` default in witness statements. -/
def dflt : Supplier :=
  { id := 0, name := "", description := "", website := "", email := "", phone := "",
    address := "", city := "", state := "", category := "", products := [], location := "",
    region := "", rating := 0, aiScore := 0, certifications := [], size := "", priceRange := "",
    yearsInBusiness := 0, projectsCompleted := 0, walmartVerified := false, employees := 0,
    responseTime := "", minOrder := "", paymentTerms := "" }

end SuppliersGeneratorPy

/-- A set-iteration order that keeps insertion order (ties everywhere, and
the mergeSort of `pySetList` is stable). -/
def hashOrdA : String → ℕ := fun _ => 0

/-- A set-iteration order that puts "Plywood" in front of everything else. -/
def hashOrdB : String → ℕ := fun t => if t = "Plywood" then 0 else 1

/-- Draws making the first app.py record sample the two products
"2x4 Lumber" and "Plywood": adjective, city and product-count draws 0
(so `num_products = 2`), then product draws 0 and 1/5. -/
def cexStream : List ℚ := [0, 0, 0, 0, 1/5]

/-- A used-name set already holding the one name the all-zero stream keeps
composing for the category word "Lumber". -/
def usedL : SuppliersGeneratorPy.Used :=
  Batteries.RBSet.empty.insert "Premier Lumber Inc."

/-!  Arithmetic facts about the CPython helpers. -/

theorem pyInt_eq_floor {q : ℚ} (h : 0 ≤ q) : pyInt q = ⌊q⌋ := by
  unfold pyInt
  rw [if_neg (by simpa using Rat.num_nonneg.mpr h)]
  rfl

theorem pyInt_nonneg {q : ℚ} (h : 0 ≤ q) : 0 ≤ pyInt q := by
  rw [pyInt_eq_floor h]; exact Int.floor_nonneg.mpr h

theorem pyInt_lt {q : ℚ} {z : ℤ} (h0 : 0 ≤ q) (h : q < (z : ℚ)) : pyInt q < z := by
  rw [pyInt_eq_floor h0]; exact Int.floor_lt.mpr h

theorem le_pyInt {q : ℚ} {z : ℤ} (h0 : 0 ≤ q) (h : (z : ℚ) ≤ q) : z ≤ pyInt q := by
  rw [pyInt_eq_floor h0]; exact Int.le_floor.mpr h

theorem pyChoose_mem {α : Type} {xs : List α} {q : ℚ} {d : α}
    (hq0 : 0 ≤ q) (hq1 : q < 1) (hxs : xs ≠ []) : pyChoose xs q d ∈ xs := by
  have hlen : 0 < xs.length := List.length_pos.mpr hxs
  have hlenQ : 0 < (xs.length : ℚ) := by exact_mod_cast hlen
  have h0 : 0 ≤ pyInt (q * xs.length) := pyInt_nonneg (mul_nonneg hq0 hlenQ.le)
  have hlt : pyInt (q * xs.length) < (xs.length : ℤ) := by
    refine pyInt_lt (mul_nonneg hq0 hlenQ.le) ?_
    calc q * (xs.length : ℚ) < 1 * xs.length := mul_lt_mul_of_pos_right hq1 hlenQ
    _ = xs.length := one_mul _
  unfold pyChoose pyGet
  rw [if_pos h0]
  have ht : (pyInt (q * xs.length)).toNat < xs.length := by omega
  rw [List.getD_eq_getElem _ _ ht]
  exact List.getElem_mem ht

theorem rndHalfEven_bounds (q : ℚ) :
    ⌊q⌋ ≤ rndHalfEven q ∧ rndHalfEven q ≤ ⌊q⌋ + 1 := by
  have hb : Rat.floor q = ⌊q⌋ := rfl
  unfold rndHalfEven
  rw [hb]
  constructor <;> · split_ifs <;> omega

theorem pyRound1_mem {q : ℚ} (h1 : 7/2 ≤ q) (h2 : q < 5) :
    7/2 ≤ pyRound1 q ∧ pyRound1 q ≤ 5 := by
  have hub := rndHalfEven_bounds (q * 10)
  have hf1 : (35 : ℤ) ≤ ⌊q * 10⌋ := Int.le_floor.mpr (by push_cast; linarith)
  have hf2 : ⌊q * 10⌋ < 50 := Int.floor_lt.mpr (by push_cast; linarith)
  have h35 : (35:ℚ) ≤ (rndHalfEven (q*10) : ℚ) := by
    exact_mod_cast (show (35:ℤ) ≤ rndHalfEven (q*10) by omega)
  have h50 : ((rndHalfEven (q*10) : ℚ)) ≤ 50 := by
    exact_mod_cast (show rndHalfEven (q*10) ≤ (50:ℤ) by omega)
  unfold pyRound1
  rw [Rat.mkRat_eq_div]
  push_cast
  constructor
  · rw [le_div_iff₀ (show (0:ℚ) < 10 by norm_num)]
    linarith
  · rw [div_le_iff₀ (show (0:ℚ) < 10 by norm_num)]
    linarith

/-!  Facts about pySetList. -/

theorem pySetList_perm_dedup (o : String → ℕ) (xs : List String) :
    (pySetList o xs).Perm xs.dedup := List.mergeSort_perm _ _

theorem pySetList_nodup (o : String → ℕ) (xs : List String) :
    (pySetList o xs).Nodup :=
  xs.nodup_dedup.perm (pySetList_perm_dedup o xs).symm

theorem pySetList_subset (o : String → ℕ) (xs : List String) :
    ∀ p ∈ pySetList o xs, p ∈ xs := fun p hp =>
  xs.dedup_subset ((pySetList_perm_dedup o xs).mem_iff.mp hp)

theorem pySetList_ne_nil (o : String → ℕ) {xs : List String} (h : xs ≠ []) :
    pySetList o xs ≠ [] := by
  have hl : (pySetList o xs).length = xs.dedup.length :=
    (pySetList_perm_dedup o xs).length_eq
  have : xs.dedup ≠ [] := by
    intro hc
    exact h ((List.dedup_eq_nil _).mp hc)
  intro hc
  rw [hc] at hl
  exact this (List.length_eq_zero.mp hl.symm)

theorem pySetList_toFinset (o : String → ℕ) (xs : List String) :
    (pySetList o xs).toFinset = xs.toFinset := by
  rw [List.toFinset_eq_of_perm _ _ (pySetList_perm_dedup o xs)]
  apply List.toFinset.ext
  intro x
  exact List.mem_dedup

namespace AppPy

theorem genRecord_id {σ : Type} (hashOrd : String → ℕ) (next : σ → ℚ × σ)
    (cat : String) (prods : List String) (sid : ℕ) (s : σ) :
    (genRecord hashOrd next cat prods sid s).1.id = sid := rfl

theorem genRecord_category {σ : Type} (hashOrd : String → ℕ) (next : σ → ℚ × σ)
    (cat : String) (prods : List String) (sid : ℕ) (s : σ) :
    (genRecord hashOrd next cat prods sid s).1.category = cat := rfl

theorem genRecord_name {σ : Type} (hashOrd : String → ℕ) (next : σ → ℚ × σ)
    (cat : String) (prods : List String) (sid : ℕ) (s : σ) :
    (genRecord hashOrd next cat prods sid s).1.name =
      pyChoose adjectives (next s).1 "" ++ " " ++ firstWord cat ++ " Supply Inc." := rfl

theorem genRecord_rating_eq {σ : Type} (hashOrd : String → ℕ) (next : σ → ℚ × σ)
    (cat : String) (prods : List String) (sid : ℕ) (s : σ) :
    ∃ t : σ, (genRecord hashOrd next cat prods sid s).1.rating =
      pyRound1 ((next t).1 * 3/2 + 7/2) := ⟨_, rfl⟩

theorem genRecord_aiScore_eq {σ : Type} (hashOrd : String → ℕ) (next : σ → ℚ × σ)
    (cat : String) (prods : List String) (sid : ℕ) (s : σ) :
    ∃ t : σ, (genRecord hashOrd next cat prods sid s).1.aiScore =
      pyInt ((next t).1 * 30 + 70) := ⟨_, rfl⟩

theorem genRecord_years_eq {σ : Type} (hashOrd : String → ℕ) (next : σ → ℚ × σ)
    (cat : String) (prods : List String) (sid : ℕ) (s : σ) :
    ∃ t : σ, (genRecord hashOrd next cat prods sid s).1.yearsInBusiness =
      pyInt ((next t).1 * 40 + 5) := ⟨_, rfl⟩

theorem genRecord_projects_eq {σ : Type} (hashOrd : String → ℕ) (next : σ → ℚ × σ)
    (cat : String) (prods : List String) (sid : ℕ) (s : σ) :
    ∃ t : σ, (genRecord hashOrd next cat prods sid s).1.projectsCompleted =
      pyInt ((next t).1 * 5000 + 100) := ⟨_, rfl⟩

theorem genRecord_products_eq {σ : Type} (hashOrd : String → ℕ) (next : σ → ℚ × σ)
    (cat : String) (prods : List String) (sid : ℕ) (s : σ) :
    ∃ t : σ, (genRecord hashOrd next cat prods sid s).1.products =
      pySetList hashOrd
        (drawProducts next prods (pyInt ((next t).1 * 3) + 2).toNat (next t).2).1 := ⟨_, rfl⟩

theorem drawProducts_length {σ : Type} (next : σ → ℚ × σ) (prods : List String) :
    ∀ n s, (drawProducts next prods n s).1.length = n := by
  intro n
  induction n with
  | zero => intro s; rfl
  | succ n ih => intro s; simp [drawProducts, ih]

theorem drawProducts_mem {σ : Type} {next : σ → ℚ × σ} (hv : StreamValid next)
    (prods : List String) (hp : prods ≠ []) :
    ∀ n s, ∀ p ∈ (drawProducts next prods n s).1, p ∈ prods := by
  intro n
  induction n with
  | zero => intro s p hp2; simp [drawProducts] at hp2
  | succ n ih =>
    intro s p hp2
    simp only [drawProducts, List.mem_cons] at hp2
    rcases hp2 with h | h
    · subst h; exact pyChoose_mem (hv s).1 (hv s).2 hp
    · exact ih _ p h

end AppPy

namespace AppPy

theorem catLoop_length {σ : Type} (hashOrd : String → ℕ) (next : σ → ℚ × σ)
    (cat : String) (prods : List String) :
    ∀ (n sid : ℕ) (s : σ), (catLoop hashOrd next cat prods n sid s).1.length = n := by
  intro n
  induction n with
  | zero => intro sid s; rfl
  | succ n ih => intro sid s; simp [catLoop, ih]

theorem catLoop_ids {σ : Type} (hashOrd : String → ℕ) (next : σ → ℚ × σ)
    (cat : String) (prods : List String) :
    ∀ (n sid : ℕ) (s : σ),
      (catLoop hashOrd next cat prods n sid s).1.map (fun r => r.id) = List.range' sid n := by
  intro n
  induction n with
  | zero => intro sid s; rfl
  | succ n ih =>
    intro sid s
    simp [catLoop, ih, genRecord_id, List.range'_succ]

theorem catLoop_cats {σ : Type} (hashOrd : String → ℕ) (next : σ → ℚ × σ)
    (cat : String) (prods : List String) :
    ∀ (n sid : ℕ) (s : σ),
      (catLoop hashOrd next cat prods n sid s).1.map (fun r => r.category) =
        List.replicate n cat := by
  intro n
  induction n with
  | zero => intro sid s; rfl
  | succ n ih =>
    intro sid s
    simp [catLoop, ih, genRecord_category, List.replicate_succ]

theorem catLoop_forall {σ : Type} {hashOrd : String → ℕ} {next : σ → ℚ × σ}
    {cat : String} {prods : List String} {P : SeedSupplier → Prop}
    (hP : ∀ (sid : ℕ) (s : σ), P (genRecord hashOrd next cat prods sid s).1) :
    ∀ (n sid : ℕ) (s : σ), ∀ r ∈ (catLoop hashOrd next cat prods n sid s).1, P r := by
  intro n
  induction n with
  | zero => intro sid s r hr; simp [catLoop] at hr
  | succ n ih =>
    intro sid s r hr
    simp only [catLoop, List.mem_cons] at hr
    rcases hr with h | h
    · subst h; exact hP sid s
    · exact ih _ _ r h

theorem catFold_length {σ : Type} (hashOrd : String → ℕ) (next : σ → ℚ × σ) :
    ∀ (table : List (String × List String)) (sid : ℕ) (s : σ),
      (catFold hashOrd next table sid s).1.length = 50 * table.length := by
  intro table
  induction table with
  | nil => intro sid s; rfl
  | cons hd tl ih =>
    intro sid s
    obtain ⟨cat, prods⟩ := hd
    simp [catFold, catLoop_length, ih]
    try ring

theorem catFold_ids {σ : Type} (hashOrd : String → ℕ) (next : σ → ℚ × σ) :
    ∀ (table : List (String × List String)) (sid : ℕ) (s : σ),
      (catFold hashOrd next table sid s).1.map (fun r => r.id) =
        List.range' sid (50 * table.length) := by
  intro table
  induction table with
  | nil => intro sid s; rfl
  | cons hd tl ih =>
    intro sid s
    obtain ⟨cat, prods⟩ := hd
    have hlen := catLoop_length hashOrd next cat prods 50 sid s
    have hsid : (catLoop hashOrd next cat prods 50 sid s).2.1 = sid + 50 := by
      clear hlen ih
      induction (50 : ℕ) generalizing sid s with
      | zero => simp [catLoop]
      | succ n ihn => simp [catLoop, ihn]; omega
    simp only [catFold, List.map_append]
    rw [catLoop_ids, hsid, ih]
    have h2 : 50 * (tl.length + 1) = 50 * tl.length + 50 := by ring
    simp only [List.length_cons, h2]
    have h3 := List.range'_append sid 50 (50 * tl.length) 1
    simp only [one_mul, mul_one] at h3
    exact h3

theorem catFold_cats {σ : Type} (hashOrd : String → ℕ) (next : σ → ℚ × σ) :
    ∀ (table : List (String × List String)) (sid : ℕ) (s : σ),
      (catFold hashOrd next table sid s).1.map (fun r => r.category) =
        table.flatMap (fun p => List.replicate 50 p.1) := by
  intro table
  induction table with
  | nil => intro sid s; rfl
  | cons hd tl ih =>
    intro sid s
    obtain ⟨cat, prods⟩ := hd
    simp only [catFold, List.map_append, List.flatMap_cons]
    rw [catLoop_cats, ih]

theorem catFold_forall {σ : Type} {hashOrd : String → ℕ} {next : σ → ℚ × σ}
    {P : SeedSupplier → Prop} :
    ∀ {table : List (String × List String)},
      (∀ cat prods, (cat, prods) ∈ table →
        ∀ (sid : ℕ) (s : σ), P (genRecord hashOrd next cat prods sid s).1) →
      ∀ (sid : ℕ) (s : σ), ∀ r ∈ (catFold hashOrd next table sid s).1, P r := by
  intro table
  induction table with
  | nil => intro _ sid s r hr; simp [catFold] at hr
  | cons hd tl ih =>
    intro hP sid s r hr
    obtain ⟨cat, prods⟩ := hd
    simp only [catFold, List.mem_append] at hr
    rcases hr with h | h
    · exact catLoop_forall (hP cat prods (by simp)) 50 sid s r h
    · exact ih (fun c p hm => hP c p (List.mem_cons_of_mem _ hm)) _ _ r h

end AppPy

namespace AppPy

/-  Hash-order independence: everything except the internal order of
`products` is the same under any two set-iteration orders. -/

theorem genRecord_state_hashOrd {σ : Type} (o1 o2 : String → ℕ) (next : σ → ℚ × σ)
    (cat : String) (prods : List String) (sid : ℕ) (s : σ) :
    (genRecord o1 next cat prods sid s).2 = (genRecord o2 next cat prods sid s).2 := rfl

theorem genRecord_core_hashOrd {σ : Type} (o1 o2 : String → ℕ) (next : σ → ℚ × σ)
    (cat : String) (prods : List String) (sid : ℕ) (s : σ) :
    (genRecord o1 next cat prods sid s).1.core = (genRecord o2 next cat prods sid s).1.core := rfl

theorem genRecord_products_hashOrd {σ : Type} (o1 o2 : String → ℕ) (next : σ → ℚ × σ)
    (cat : String) (prods : List String) (sid : ℕ) (s : σ) :
    ((genRecord o1 next cat prods sid s).1.products).Perm
      ((genRecord o2 next cat prods sid s).1.products) :=
  (pySetList_perm_dedup o1 _).trans (pySetList_perm_dedup o2 _).symm

theorem catLoop_hashOrd {σ : Type} (o1 o2 : String → ℕ) (next : σ → ℚ × σ)
    (cat : String) (prods : List String) :
    ∀ (n sid : ℕ) (s : σ),
      List.Forall₂ (fun a b => a.core = b.core ∧ a.products.Perm b.products)
        (catLoop o1 next cat prods n sid s).1 (catLoop o2 next cat prods n sid s).1 ∧
      (catLoop o1 next cat prods n sid s).2 = (catLoop o2 next cat prods n sid s).2 := by
  intro n
  induction n with
  | zero => intro sid s; exact ⟨List.Forall₂.nil, rfl⟩
  | succ n ih =>
    intro sid s
    have hst := genRecord_state_hashOrd o1 o2 next cat prods sid s
    have hrec := ih (sid + 1) (genRecord o1 next cat prods sid s).2
    simp only [catLoop]
    rw [hst] at hrec ⊢
    exact ⟨List.Forall₂.cons
      ⟨genRecord_core_hashOrd o1 o2 next cat prods sid s,
       genRecord_products_hashOrd o1 o2 next cat prods sid s⟩ hrec.1, hrec.2⟩

theorem catFold_hashOrd {σ : Type} (o1 o2 : String → ℕ) (next : σ → ℚ × σ) :
    ∀ (table : List (String × List String)) (sid : ℕ) (s : σ),
      List.Forall₂ (fun a b => a.core = b.core ∧ a.products.Perm b.products)
        (catFold o1 next table sid s).1 (catFold o2 next table sid s).1 ∧
      (catFold o1 next table sid s).2 = (catFold o2 next table sid s).2 := by
  intro table
  induction table with
  | nil => intro sid s; exact ⟨List.Forall₂.nil, rfl⟩
  | cons hd tl ih =>
    intro sid s
    obtain ⟨cat, prods⟩ := hd
    have hcl := catLoop_hashOrd o1 o2 next cat prods 50 sid s
    simp only [catFold]
    rw [hcl.2]
    have hrest := ih (catLoop o2 next cat prods 50 sid s).2.1
      (catLoop o2 next cat prods 50 sid s).2.2
    exact ⟨List.rel_append hcl.1 hrest.1, hrest.2⟩

end AppPy

namespace SuppliersGeneratorPy

theorem spc_eq : 5000 / product_categories.length = 500 := rfl

theorem bk_genRecord_id {σ : Type} (next : σ → ℚ × σ) (cat : String)
    (prods : List String) (used : Used) (sid : ℕ) (s : σ) :
    (genRecord next cat prods used sid s).1.id = sid := rfl

theorem bk_genRecord_category {σ : Type} (next : σ → ℚ × σ) (cat : String)
    (prods : List String) (used : Used) (sid : ℕ) (s : σ) :
    (genRecord next cat prods used sid s).1.category = cat := rfl

theorem bk_genRecord_rating_eq {σ : Type} (next : σ → ℚ × σ) (cat : String)
    (prods : List String) (used : Used) (sid : ℕ) (s : σ) :
    ∃ t : σ, (genRecord next cat prods used sid s).1.rating =
      pyRound1 ((next t).1 * 3/2 + 7/2) := ⟨_, rfl⟩

theorem bk_genRecord_aiScore_eq {σ : Type} (next : σ → ℚ × σ) (cat : String)
    (prods : List String) (used : Used) (sid : ℕ) (s : σ) :
    ∃ t : σ, (genRecord next cat prods used sid s).1.aiScore =
      pyInt ((next t).1 * 30 + 70) := ⟨_, rfl⟩

theorem bk_genRecord_years_eq {σ : Type} (next : σ → ℚ × σ) (cat : String)
    (prods : List String) (used : Used) (sid : ℕ) (s : σ) :
    ∃ t : σ, (genRecord next cat prods used sid s).1.yearsInBusiness =
      pyInt ((next t).1 * 40 + 5) := ⟨_, rfl⟩

theorem bk_genRecord_projects_eq {σ : Type} (next : σ → ℚ × σ) (cat : String)
    (prods : List String) (used : Used) (sid : ℕ) (s : σ) :
    ∃ t : σ, (genRecord next cat prods used sid s).1.projectsCompleted =
      pyInt ((next t).1 * 5000 + 100) := ⟨_, rfl⟩

theorem bk_genRecord_products_eq {σ : Type} (next : σ → ℚ × σ) (cat : String)
    (prods : List String) (used : Used) (sid : ℕ) (s : σ) :
    ∃ t : σ, (genRecord next cat prods used sid s).1.products =
      (dedupDraw next prods (pyInt ((next t).1 * 5) + 2).toNat [] (next t).2).1 := ⟨_, rfl⟩

theorem dedupDraw_subset {σ : Type} {next : σ → ℚ × σ} (hv : StreamValid next)
    {pool : List String} (hp : pool ≠ []) :
    ∀ (n : ℕ) (acc : List String) (s : σ), (∀ x ∈ acc, x ∈ pool) →
      ∀ x ∈ (dedupDraw next pool n acc s).1, x ∈ pool := by
  intro n
  induction n with
  | zero => intro acc s hacc x hx; exact hacc x hx
  | succ n ih =>
    intro acc s hacc x hx
    simp only [dedupDraw] at hx
    refine ih _ _ ?_ x hx
    intro y hy
    by_cases hmem : pyChoose pool (next s).1 "" ∈ acc
    · rw [if_pos hmem] at hy; exact hacc y hy
    · rw [if_neg hmem] at hy
      rcases List.mem_append.mp hy with h | h
      · exact hacc y h
      · rcases List.mem_singleton.mp h with rfl
        exact pyChoose_mem (hv s).1 (hv s).2 hp

theorem dedupDraw_nodup {σ : Type} (next : σ → ℚ × σ) (pool : List String) :
    ∀ (n : ℕ) (acc : List String) (s : σ), acc.Nodup →
      (dedupDraw next pool n acc s).1.Nodup := by
  intro n
  induction n with
  | zero => intro acc s hacc; exact hacc
  | succ n ih =>
    intro acc s hacc
    simp only [dedupDraw]
    refine ih _ _ ?_
    by_cases hmem : pyChoose pool (next s).1 "" ∈ acc
    · rw [if_pos hmem]; exact hacc
    · rw [if_neg hmem]
      simp [List.nodup_append, hacc, hmem]

theorem dedupDraw_acc_ne_nil {σ : Type} (next : σ → ℚ × σ) (pool : List String) :
    ∀ (n : ℕ) (acc : List String) (s : σ), acc ≠ [] →
      (dedupDraw next pool n acc s).1 ≠ [] := by
  intro n
  induction n with
  | zero => intro acc s hacc; exact hacc
  | succ n ih =>
    intro acc s hacc
    simp only [dedupDraw]
    refine ih _ _ ?_
    by_cases hmem : pyChoose pool (next s).1 "" ∈ acc
    · rw [if_pos hmem]; exact hacc
    · rw [if_neg hmem]
      simp

theorem dedupDraw_ne_nil {σ : Type} (next : σ → ℚ × σ) (pool : List String) :
    ∀ (n : ℕ) (s : σ), 1 ≤ n → (dedupDraw next pool n [] s).1 ≠ [] := by
  intro n s hn
  match n, hn with
  | n+1, _ =>
    simp only [dedupDraw]
    rw [if_neg (List.not_mem_nil _)]
    exact dedupDraw_acc_ne_nil next pool n _ _ (by simp)

theorem bk_catLoop_length {σ : Type} (next : σ → ℚ × σ) (cat : String) (prods : List String) :
    ∀ (n : ℕ) (used : Used) (sid : ℕ) (s : σ),
      (catLoop next cat prods n used sid s).1.length = n := by
  intro n
  induction n with
  | zero => intro used sid s; rfl
  | succ n ih => intro used sid s; simp [catLoop, ih]

theorem bk_catLoop_ids {σ : Type} (next : σ → ℚ × σ) (cat : String) (prods : List String) :
    ∀ (n : ℕ) (used : Used) (sid : ℕ) (s : σ),
      (catLoop next cat prods n used sid s).1.map (fun r => r.id) = List.range' sid n := by
  intro n
  induction n with
  | zero => intro used sid s; rfl
  | succ n ih =>
    intro used sid s
    simp [catLoop, ih, bk_genRecord_id, List.range'_succ]

theorem bk_catLoop_cats {σ : Type} (next : σ → ℚ × σ) (cat : String) (prods : List String) :
    ∀ (n : ℕ) (used : Used) (sid : ℕ) (s : σ),
      (catLoop next cat prods n used sid s).1.map (fun r => r.category) =
        List.replicate n cat := by
  intro n
  induction n with
  | zero => intro used sid s; rfl
  | succ n ih =>
    intro used sid s
    simp [catLoop, ih, bk_genRecord_category, List.replicate_succ]

theorem bk_catLoop_sid {σ : Type} (next : σ → ℚ × σ) (cat : String) (prods : List String) :
    ∀ (n : ℕ) (used : Used) (sid : ℕ) (s : σ),
      (catLoop next cat prods n used sid s).2.2.1 = sid + n := by
  intro n
  induction n with
  | zero => intro used sid s; simp [catLoop]
  | succ n ih =>
    intro used sid s
    simp [catLoop, ih]
    omega

theorem bk_catLoop_forall {σ : Type} {next : σ → ℚ × σ} {cat : String}
    {prods : List String} {P : Supplier → Prop}
    (hP : ∀ (used : Used) (sid : ℕ) (s : σ), P (genRecord next cat prods used sid s).1) :
    ∀ (n : ℕ) (used : Used) (sid : ℕ) (s : σ),
      ∀ r ∈ (catLoop next cat prods n used sid s).1, P r := by
  intro n
  induction n with
  | zero => intro used sid s r hr; simp [catLoop] at hr
  | succ n ih =>
    intro used sid s r hr
    simp only [catLoop, List.mem_cons] at hr
    rcases hr with h | h
    · subst h; exact hP used sid s
    · exact ih _ _ _ r h

theorem bk_catFold_length {σ : Type} (next : σ → ℚ × σ) :
    ∀ (table : List (String × List String)) (used : Used) (sid : ℕ) (s : σ),
      (catFold next table used sid s).1.length = 500 * table.length := by
  intro table
  induction table with
  | nil => intro used sid s; rfl
  | cons hd tl ih =>
    intro used sid s
    obtain ⟨cat, prods⟩ := hd
    simp [catFold, spc_eq, bk_catLoop_length, ih]
    try ring

theorem bk_catFold_ids {σ : Type} (next : σ → ℚ × σ) :
    ∀ (table : List (String × List String)) (used : Used) (sid : ℕ) (s : σ),
      (catFold next table used sid s).1.map (fun r => r.id) =
        List.range' sid (500 * table.length) := by
  intro table
  induction table with
  | nil => intro used sid s; rfl
  | cons hd tl ih =>
    intro used sid s
    obtain ⟨cat, prods⟩ := hd
    simp only [catFold, spc_eq, List.map_append]
    rw [bk_catLoop_ids, bk_catLoop_sid, ih]
    have h2 : 500 * (tl.length + 1) = 500 * tl.length + 500 := by ring
    simp only [List.length_cons, h2]
    have h3 := List.range'_append sid 500 (500 * tl.length) 1
    simp only [one_mul, mul_one] at h3
    exact h3

theorem bk_catFold_cats {σ : Type} (next : σ → ℚ × σ) :
    ∀ (table : List (String × List String)) (used : Used) (sid : ℕ) (s : σ),
      (catFold next table used sid s).1.map (fun r => r.category) =
        table.flatMap (fun p => List.replicate 500 p.1) := by
  intro table
  induction table with
  | nil => intro used sid s; rfl
  | cons hd tl ih =>
    intro used sid s
    obtain ⟨cat, prods⟩ := hd
    simp only [catFold, spc_eq, List.map_append, List.flatMap_cons]
    rw [bk_catLoop_cats, ih]

theorem bk_catFold_forall {σ : Type} {next : σ → ℚ × σ} {P : Supplier → Prop} :
    ∀ {table : List (String × List String)},
      (∀ cat prods, (cat, prods) ∈ table →
        ∀ (used : Used) (sid : ℕ) (s : σ), P (genRecord next cat prods used sid s).1) →
      ∀ (used : Used) (sid : ℕ) (s : σ), ∀ r ∈ (catFold next table used sid s).1, P r := by
  intro table
  induction table with
  | nil => intro _ used sid s r hr; simp [catFold] at hr
  | cons hd tl ih =>
    intro hP used sid s r hr
    obtain ⟨cat, prods⟩ := hd
    simp only [catFold, List.mem_append] at hr
    rcases hr with h | h
    · exact bk_catLoop_forall (hP cat prods (by simp)) _ used sid s r h
    · exact ih (fun c p hm => hP c p (List.mem_cons_of_mem _ hm)) _ _ _ r h

end SuppliersGeneratorPy

namespace SuppliersPy

theorem sp_genRecord_id {σ : Type} (next : σ → ℚ × σ) (i : ℕ) (s : σ) :
    (genRecord next i s).1.id = i + 1 := rfl

theorem genLoop_length {σ : Type} (next : σ → ℚ × σ) :
    ∀ (n i : ℕ) (s : σ), (genLoop next n i s).1.length = n := by
  intro n
  induction n with
  | zero => intro i s; rfl
  | succ n ih => intro i s; simp [genLoop, ih]

theorem genLoop_ids {σ : Type} (next : σ → ℚ × σ) :
    ∀ (n i : ℕ) (s : σ),
      (genLoop next n i s).1.map (fun r => r.id) = List.range' (i + 1) n := by
  intro n
  induction n with
  | zero => intro i s; rfl
  | succ n ih =>
    intro i s
    simp [genLoop, ih, sp_genRecord_id, List.range'_succ]

theorem generate_eq_ok {σ : Type} (next : σ → ℚ × σ) (count : ℤ) (s : σ) :
    generate_suppliers next count s = Except.ok (genLoop next count.toNat 0 s).1 := rfl

end SuppliersPy

namespace SuppliersGeneratorPy

/-- Behaviour of the name-retry loop from any entry value `attempts ≤ 10`
(the generator enters at 0): at most `11 - attempts` further iterations run;
either an unused plain composed name is returned, or the numeric-suffix
fallback fires with the attempt counter exactly at 11. -/
theorem nameLoop_from {σ : Type} {next : σ → ℚ × σ} (hv : StreamValid next)
    (short : String) (used : Used) :
    ∀ (k attempts : ℕ) (s : σ), attempts + k = 10 →
      (nameLoop next short used attempts s).2.2.1 ≤ 11 ∧
      ((∃ adj ∈ adjectives, ∃ ts ∈ company_types,
          (nameLoop next short used attempts s).2.1 = adj ++ " " ++ short ++ " " ++ ts ∧
          used.contains ((nameLoop next short used attempts s).2.1) = false) ∨
       (∃ adj ∈ adjectives, ∃ ts ∈ company_types, ∃ k2 : ℤ, 1 ≤ k2 ∧ k2 ≤ 999 ∧
          (nameLoop next short used attempts s).2.1 =
            adj ++ " " ++ short ++ " " ++ ts ++ " #" ++ toString k2 ∧
          (nameLoop next short used attempts s).2.2.1 = 11 ∧
          used.contains (adj ++ " " ++ short ++ " " ++ ts) = true)) := by
  intro k
  induction k with
  | zero =>
    intro attempts s hsum
    have ha : attempts = 10 := by omega
    subst ha
    rw [nameLoop]
    simp only [show (10:ℕ) < 20 by norm_num, dite_true]
    set adj := pyChoose adjectives (next s).1 "" with hadj
    set ts := pyChoose company_types (next (next s).2).1 "" with hts
    have hadjm : adj ∈ adjectives :=
      pyChoose_mem (hv s).1 (hv s).2 (by simp [adjectives])
    have htsm : ts ∈ company_types :=
      pyChoose_mem (hv (next s).2).1 (hv (next s).2).2 (by simp [company_types])
    by_cases hc : used.contains (adj ++ " " ++ short ++ " " ++ ts) = true
    · rw [if_neg (by simp [hc]), if_pos (by norm_num)]
      have hr0 := (hv (next (next s).2).2).1
      have hr1 := (hv (next (next s).2).2).2
      refine ⟨by norm_num, Or.inr ⟨adj, hadjm, ts, htsm,
        pyInt ((next (next (next s).2).2).1 * 999 + 1), ?_, ?_, rfl, rfl, hc⟩⟩
      · exact le_pyInt (by linarith) (by push_cast; linarith)
      · have : pyInt ((next (next (next s).2).2).1 * 999 + 1) < 1000 :=
          pyInt_lt (by linarith) (by push_cast; linarith)
        omega
    · rw [if_pos (by simp [hc])]
      refine ⟨by norm_num, Or.inl ⟨adj, hadjm, ts, htsm, rfl, ?_⟩⟩
      exact Bool.eq_false_iff.mpr hc
  | succ k ih =>
    intro attempts s hsum
    rw [nameLoop]
    rw [dif_pos (show attempts < 20 by omega)]
    set adj := pyChoose adjectives (next s).1 "" with hadj
    set ts := pyChoose company_types (next (next s).2).1 "" with hts
    have hadjm : adj ∈ adjectives :=
      pyChoose_mem (hv s).1 (hv s).2 (by simp [adjectives])
    have htsm : ts ∈ company_types :=
      pyChoose_mem (hv (next s).2).1 (hv (next s).2).2 (by simp [company_types])
    by_cases hc : used.contains (adj ++ " " ++ short ++ " " ++ ts) = true
    · rw [if_neg (by simp [hc]), if_neg (by omega)]
      exact ih (attempts + 1) (next (next s).2).2 (by omega)
    · rw [if_pos (by simp [hc])]
      refine ⟨by show attempts + 1 ≤ 11; omega, Or.inl ⟨adj, hadjm, ts, htsm, rfl, ?_⟩⟩
      show used.contains (adj ++ " " ++ short ++ " " ++ ts) = false
      exact Bool.eq_false_iff.mpr hc

end SuppliersGeneratorPy

/-!  The concrete CPython stream is a valid draw source. -/

theorem xor32_lt {a b : ℕ} (ha : a < 4294967296) (hb : b < 4294967296) :
    Nat.xor a b < 4294967296 := by
  have h32 : (4294967296 : ℕ) = 2 ^ 32 := by norm_num
  rw [h32] at ha hb ⊢
  exact Nat.xor_lt_two_pow ha hb

theorem shiftRight_le_self (a k : ℕ) : a >>> k ≤ a := by
  rw [Nat.shiftRight_eq_div_pow]
  exact Nat.div_le_self _ _

theorem mtNextRaw_lt (s : MTState) : (mtNextRaw s).1 < 4294967296 := by
  unfold mtNextRaw
  set y0 := Nat.land ((if s.idx ≥ 624 then twistPool s.pool else s.pool) >>> (32 * if s.idx ≥ 624 then 0 else s.idx)) 4294967295 with hy0
  have h0 : y0 < 4294967296 := lt_of_le_of_lt Nat.and_le_right (by norm_num)
  set y1 := Nat.xor y0 (y0 >>> 11) with hy1
  have h1 : y1 < 4294967296 := xor32_lt h0 (lt_of_le_of_lt (shiftRight_le_self _ _) h0)
  set y2 := Nat.xor y1 (Nat.land (y1 <<< 7) 2636928640) with hy2
  have h2 : y2 < 4294967296 := xor32_lt h1 (lt_of_le_of_lt Nat.and_le_right (by norm_num))
  set y3 := Nat.xor y2 (Nat.land (y2 <<< 15) 4022730752) with hy3
  have h3 : y3 < 4294967296 := xor32_lt h2 (lt_of_le_of_lt Nat.and_le_right (by norm_num))
  show Nat.xor y3 (y3 >>> 18) < 4294967296
  exact xor32_lt h3 (lt_of_le_of_lt (shiftRight_le_self _ _) h3)

theorem streamValid_mtRandom : StreamValid mtRandom := by
  intro s
  have h1 : (mtNextRaw s).1 < 4294967296 := mtNextRaw_lt s
  have h2 : (mtNextRaw (mtNextRaw s).2).1 < 4294967296 := mtNextRaw_lt _
  have hval : (mtRandom s).1 =
      mkRat (((mtNextRaw s).1 >>> 5) * 67108864 + ((mtNextRaw (mtNextRaw s).2).1 >>> 6) : ℕ)
        9007199254740992 := rfl
  have ha : (mtNextRaw s).1 >>> 5 < 134217728 := by
    rw [Nat.shiftRight_eq_div_pow]
    omega
  have hb : (mtNextRaw (mtNextRaw s).2).1 >>> 6 < 67108864 := by
    rw [Nat.shiftRight_eq_div_pow]
    omega
  have hk : ((mtNextRaw s).1 >>> 5) * 67108864 + ((mtNextRaw (mtNextRaw s).2).1 >>> 6) <
      9007199254740992 := by nlinarith
  rw [hval, Rat.mkRat_eq_div]
  constructor
  · positivity
  · rw [div_lt_one (by norm_num)]
    exact_mod_cast hk

theorem streamValid_zeroStream : StreamValid zeroStream := by
  intro s
  constructor <;> norm_num [zeroStream]

/-!  Counting helpers for category coverage. -/

theorem count_flatMap_replicate_zero (n : ℕ) (c : String) :
    ∀ (keys : List String), c ∉ keys →
      ((keys.flatMap (fun k => List.replicate n k)).count c) = 0 := by
  intro keys
  induction keys with
  | nil => intro _; rfl
  | cons k t ih =>
    intro hc
    simp only [List.flatMap_cons, List.count_append]
    rw [ih (fun h => hc (List.mem_cons_of_mem _ h))]
    have hck : c ≠ k := fun h => hc (h ▸ List.mem_cons_self _ _)
    simp only [List.count_replicate]
    rw [if_neg (fun h => hck (beq_iff_eq.mp h).symm)]

theorem count_flatMap_replicate (n : ℕ) (c : String) :
    ∀ (keys : List String), keys.Nodup → c ∈ keys →
      ((keys.flatMap (fun k => List.replicate n k)).count c) = n := by
  intro keys
  induction keys with
  | nil => intro _ hc; simp at hc
  | cons k t ih =>
    intro hnd hc
    simp only [List.flatMap_cons, List.count_append]
    rcases List.mem_cons.mp hc with rfl | hmem
    · rw [count_flatMap_replicate_zero n c t (by simp at hnd; exact hnd.1)]
      simp [List.count_replicate]
    · have hck : c ≠ k := by
        rintro rfl
        simp at hnd
        exact hnd.1 hmem
      rw [ih (by simp at hnd; exact hnd.2) hmem]
      simp only [List.count_replicate]
      rw [if_neg (fun h => hck (beq_iff_eq.mp h).symm)]
      omega

theorem toFinset_flatMap_replicate (n : ℕ) (hn : 0 < n) :
    ∀ (keys : List String),
      (keys.flatMap (fun k => List.replicate n k)).toFinset = keys.toFinset := by
  intro keys
  induction keys with
  | nil => rfl
  | cons k t ih =>
    apply Finset.ext
    intro x
    simp only [List.flatMap_cons, List.toFinset_append, Finset.mem_union, List.mem_toFinset,
      List.mem_replicate, List.toFinset_cons, Finset.mem_insert]
    constructor
    · rintro (⟨-, rfl⟩ | hx)
      · exact Or.inl rfl
      · right
        have := ih ▸ (List.mem_toFinset.mpr hx)
        exact List.mem_toFinset.mp this
    · rintro (rfl | hx)
      · exact Or.inl ⟨by omega, rfl⟩
      · right
        have := List.mem_toFinset.mp (ih ▸ (List.mem_toFinset.mpr hx))
        exact this

/-- Claim C2: for every valid configuration the generated sequence has
exactly the configured length: `generate_seed_suppliers` (app.py, 10
categories times 50) always yields 500 records, the backend
`SupplierGenerator.generate_suppliers` (10 categories times 5000 // 10)
always yields 5000 records, and `generate_suppliers(count)` of suppliers.py
yields exactly `count` records (`count.toNat` for an integer argument, since
`range(count)` is empty for nonpositive `count`); no record is dropped. -/
theorem count_invariant :
    (∀ (σ : Type) (hashOrd : String → ℕ) (next : σ → ℚ × σ) (s : σ),
      (AppPy.generate_seed_suppliers hashOrd next s).length = 500) ∧
    (∀ (σ : Type) (next : σ → ℚ × σ) (s : σ),
      (SuppliersGeneratorPy.generate_suppliers next s).1.length = 5000) ∧
    (∀ (σ : Type) (next : σ → ℚ × σ) (count : ℤ) (s : σ),
      ∃ l, SuppliersPy.generate_suppliers next count s = Except.ok l ∧
        l.length = count.toNat) := by
  refine ⟨?_, ?_, ?_⟩
  · intro σ hashOrd next s
    have h := AppPy.catFold_length hashOrd next AppPy.product_categories 1 s
    simpa [AppPy.generate_seed_suppliers, AppPy.product_categories] using h
  · intro σ next s
    have h := SuppliersGeneratorPy.bk_catFold_length next SuppliersGeneratorPy.product_categories
      Batteries.RBSet.empty 1 s
    simpa [SuppliersGeneratorPy.generate_suppliers, SuppliersGeneratorPy.product_categories] using h
  · intro σ next count s
    exact ⟨_, SuppliersPy.generate_eq_ok next count s, SuppliersPy.genLoop_length next _ 0 s⟩

/-- Claim C3: the id fields of each generated sequence are exactly
`1, 2, 3, ..., N` in generation order (`List.range' 1 N`), with no gaps and
no repeats, for the app.py, backend and suppliers.py generators alike. -/
theorem id_invariant :
    (∀ (σ : Type) (hashOrd : String → ℕ) (next : σ → ℚ × σ) (s : σ),
      (AppPy.generate_seed_suppliers hashOrd next s).map (fun r => r.id) =
        List.range' 1 500) ∧
    (∀ (σ : Type) (next : σ → ℚ × σ) (s : σ),
      (SuppliersGeneratorPy.generate_suppliers next s).1.map (fun r => r.id) =
        List.range' 1 5000) ∧
    (∀ (σ : Type) (next : σ → ℚ × σ) (count : ℤ) (s : σ),
      ∃ l, SuppliersPy.generate_suppliers next count s = Except.ok l ∧
        l.map (fun r => r.id) = List.range' 1 count.toNat) := by
  refine ⟨?_, ?_, ?_⟩
  · intro σ hashOrd next s
    have h := AppPy.catFold_ids hashOrd next AppPy.product_categories 1 s
    simpa [AppPy.generate_seed_suppliers, AppPy.product_categories] using h
  · intro σ next s
    have h := SuppliersGeneratorPy.bk_catFold_ids next SuppliersGeneratorPy.product_categories
      Batteries.RBSet.empty 1 s
    simpa [SuppliersGeneratorPy.generate_suppliers, SuppliersGeneratorPy.product_categories] using h
  · intro σ next count s
    exact ⟨_, SuppliersPy.generate_eq_ok next count s, SuppliersPy.genLoop_ids next _ 0 s⟩

theorem flatMap_replicate_fst (n : ℕ) :
    ∀ (table : List (String × List String)),
      table.flatMap (fun p => List.replicate n p.1) =
        (table.map Prod.fst).flatMap (fun k => List.replicate n k) := by
  intro table
  induction table with
  | nil => rfl
  | cons hd tl ih => simp only [List.flatMap_cons, List.map_cons, ih]

/-- Claim C8: under per-category configuration the categories of the output are
visited in declared order — the mapped category list is exactly the table keys
each replicated per_category_count times in order — hence the set of distinct
category values equals the configured category set and each category appears
exactly per_category_count times (50 in app.py, 500 in the backend). -/
theorem category_coverage :
    (∀ (σ : Type) (hashOrd : String → ℕ) (next : σ → ℚ × σ) (s : σ),
      ((AppPy.generate_seed_suppliers hashOrd next s).map (fun r => r.category) =
        (AppPy.product_categories.map Prod.fst).flatMap (fun k => List.replicate 50 k)) ∧
      ((AppPy.generate_seed_suppliers hashOrd next s).map (fun r => r.category)).toFinset =
        (AppPy.product_categories.map Prod.fst).toFinset ∧
      (∀ c ∈ AppPy.product_categories.map Prod.fst,
        ((AppPy.generate_seed_suppliers hashOrd next s).map
          (fun r => r.category)).count c = 50)) ∧
    (∀ (σ : Type) (next : σ → ℚ × σ) (s : σ),
      (((SuppliersGeneratorPy.generate_suppliers next s).1.map (fun r => r.category)) =
        (SuppliersGeneratorPy.product_categories.map Prod.fst).flatMap
          (fun k => List.replicate 500 k)) ∧
      ((SuppliersGeneratorPy.generate_suppliers next s).1.map
          (fun r => r.category)).toFinset =
        (SuppliersGeneratorPy.product_categories.map Prod.fst).toFinset ∧
      (∀ c ∈ SuppliersGeneratorPy.product_categories.map Prod.fst,
        ((SuppliersGeneratorPy.generate_suppliers next s).1.map
          (fun r => r.category)).count c = 500)) := by
  constructor
  · intro σ hashOrd next s
    have hmap : (AppPy.generate_seed_suppliers hashOrd next s).map (fun r => r.category) =
        (AppPy.product_categories.map Prod.fst).flatMap (fun k => List.replicate 50 k) := by
      have h := AppPy.catFold_cats hashOrd next AppPy.product_categories 1 s
      rw [AppPy.generate_seed_suppliers, h, flatMap_replicate_fst]
    have hnd : (AppPy.product_categories.map Prod.fst).Nodup := by decide
    refine ⟨hmap, ?_, ?_⟩
    · rw [hmap]; exact toFinset_flatMap_replicate 50 (by omega) _
    · intro c hc
      rw [hmap]; exact count_flatMap_replicate 50 c _ hnd hc
  · intro σ next s
    have hmap : (SuppliersGeneratorPy.generate_suppliers next s).1.map (fun r => r.category) =
        (SuppliersGeneratorPy.product_categories.map Prod.fst).flatMap
          (fun k => List.replicate 500 k) := by
      have h := SuppliersGeneratorPy.bk_catFold_cats next SuppliersGeneratorPy.product_categories
        Batteries.RBSet.empty 1 s
      rw [SuppliersGeneratorPy.generate_suppliers, h, flatMap_replicate_fst]
    have hnd : (SuppliersGeneratorPy.product_categories.map Prod.fst).Nodup := by decide
    refine ⟨hmap, ?_, ?_⟩
    · rw [hmap]; exact toFinset_flatMap_replicate 500 (by omega) _
    · intro c hc
      rw [hmap]; exact count_flatMap_replicate 500 c _ hnd hc

/-- Claim C1 counterexample: with the same seed stream and configuration, two
runs of generate_seed_suppliers under two different interpreter string-hash
states (the orders hashOrdA and hashOrdB) disagree on the internal order of
the first records products field, so the output is not byte-identical across
runs. -/
theorem products_set_order_counterexample :
    ((AppPy.generate_seed_suppliers hashOrdA listStream cexStream).head?.map
        (fun r => r.products) = some ["2x4 Lumber", "Plywood"]) ∧
    ((AppPy.generate_seed_suppliers hashOrdB listStream cexStream).head?.map
        (fun r => r.products) = some ["Plywood", "2x4 Lumber"]) := by
  constructor
  · with_unfolding_all rfl
  · with_unfolding_all rfl

/-- Claim C1 (amended): for a fixed stream and configuration, two runs of
generate_seed_suppliers agree element-wise on every field except the internal
order of products, which is a permutation: the record core (id, name,
category, location, region, rating, aiScore, certifications, walmartVerified,
yearsInBusiness, projectsCompleted) is equal under any two set-iteration
orders, and the stream is consumed identically. -/
theorem determinism_up_to_set_order {σ : Type} (hashOrd1 hashOrd2 : String → ℕ)
    (next : σ → ℚ × σ) (s : σ) :
    List.Forall₂ (fun a b => a.core = b.core ∧ a.products.Perm b.products)
      (AppPy.generate_seed_suppliers hashOrd1 next s)
      (AppPy.generate_seed_suppliers hashOrd2 next s) :=
  (AppPy.catFold_hashOrd hashOrd1 hashOrd2 next AppPy.product_categories 1 s).1

/-- Claim C4 counterexample: a malformed configuration (negative count) does
not fail fast with a configuration error; generate_suppliers of suppliers.py
returns the empty sequence, since range(count) is empty. -/
theorem no_fail_fast_counterexample :
    SuppliersPy.generate_suppliers zeroStream (-5) () = Except.ok [] := rfl

/-- Claim C4 (amended): generate_suppliers of suppliers.py performs no
configuration validation and raises nothing: for every count it returns ok,
with exactly count.toNat records, and in particular the empty sequence for
every nonpositive count. -/
theorem no_validation_total {σ : Type} (next : σ → ℚ × σ) (count : ℤ) (s : σ) :
    ∃ l, SuppliersPy.generate_suppliers next count s = Except.ok l ∧
      l.length = count.toNat ∧ (count ≤ 0 → l = []) := by
  refine ⟨_, SuppliersPy.generate_eq_ok next count s,
    SuppliersPy.genLoop_length next _ 0 s, ?_⟩
  intro hc
  show (SuppliersPy.genLoop next count.toNat 0 s).1 = []
  rw [Int.toNat_of_nonpos hc]
  rfl

/-- Witness for the amended C4 theorem at the concrete malformed count -5. -/
theorem no_validation_total_witness :
    ∃ l, SuppliersPy.generate_suppliers zeroStream (-5) () = Except.ok l ∧
      l.length = (-5 : ℤ).toNat ∧ ((-5 : ℤ) ≤ 0 → l = []) :=
  no_validation_total zeroStream (-5) ()

/-- Claim C5 counterexample: on the all-zero stream with the composed name
already used, the retry loop starting at attempts 0 falls back to the numeric
suffix after only 11 attempts (the source condition is attempts > 10), not
after its 20 permitted retries: the result holds the fallback name with the
attempts counter at 11, and 11 < 20. -/
theorem fallback_at_eleven_counterexample :
    SuppliersGeneratorPy.nameLoop zeroStream "Lumber" usedL 0 () =
      ("Premier", "Premier Lumber Inc. #1", 11, ()) ∧ (11 : ℕ) < 20 := by
  refine ⟨?_, by norm_num⟩
  have h0 : SuppliersGeneratorPy.nameLoop zeroStream "Lumber" usedL 0 () =
      SuppliersGeneratorPy.nameLoop zeroStream "Lumber" usedL 1 () := by
    conv_lhs => rw [SuppliersGeneratorPy.nameLoop]
    rw [dif_pos (show (0:ℕ) < 20 by norm_num)]
    with_unfolding_all rfl
  have h1 : SuppliersGeneratorPy.nameLoop zeroStream "Lumber" usedL 1 () =
      SuppliersGeneratorPy.nameLoop zeroStream "Lumber" usedL 2 () := by
    conv_lhs => rw [SuppliersGeneratorPy.nameLoop]
    rw [dif_pos (show (1:ℕ) < 20 by norm_num)]
    with_unfolding_all rfl
  have h2 : SuppliersGeneratorPy.nameLoop zeroStream "Lumber" usedL 2 () =
      SuppliersGeneratorPy.nameLoop zeroStream "Lumber" usedL 3 () := by
    conv_lhs => rw [SuppliersGeneratorPy.nameLoop]
    rw [dif_pos (show (2:ℕ) < 20 by norm_num)]
    with_unfolding_all rfl
  have h3 : SuppliersGeneratorPy.nameLoop zeroStream "Lumber" usedL 3 () =
      SuppliersGeneratorPy.nameLoop zeroStream "Lumber" usedL 4 () := by
    conv_lhs => rw [SuppliersGeneratorPy.nameLoop]
    rw [dif_pos (show (3:ℕ) < 20 by norm_num)]
    with_unfolding_all rfl
  have h4 : SuppliersGeneratorPy.nameLoop zeroStream "Lumber" usedL 4 () =
      SuppliersGeneratorPy.nameLoop zeroStream "Lumber" usedL 5 () := by
    conv_lhs => rw [SuppliersGeneratorPy.nameLoop]
    rw [dif_pos (show (4:ℕ) < 20 by norm_num)]
    with_unfolding_all rfl
  have h5 : SuppliersGeneratorPy.nameLoop zeroStream "Lumber" usedL 5 () =
      SuppliersGeneratorPy.nameLoop zeroStream "Lumber" usedL 6 () := by
    conv_lhs => rw [SuppliersGeneratorPy.nameLoop]
    rw [dif_pos (show (5:ℕ) < 20 by norm_num)]
    with_unfolding_all rfl
  have h6 : SuppliersGeneratorPy.nameLoop zeroStream "Lumber" usedL 6 () =
      SuppliersGeneratorPy.nameLoop zeroStream "Lumber" usedL 7 () := by
    conv_lhs => rw [SuppliersGeneratorPy.nameLoop]
    rw [dif_pos (show (6:ℕ) < 20 by norm_num)]
    with_unfolding_all rfl
  have h7 : SuppliersGeneratorPy.nameLoop zeroStream "Lumber" usedL 7 () =
      SuppliersGeneratorPy.nameLoop zeroStream "Lumber" usedL 8 () := by
    conv_lhs => rw [SuppliersGeneratorPy.nameLoop]
    rw [dif_pos (show (7:ℕ) < 20 by norm_num)]
    with_unfolding_all rfl
  have h8 : SuppliersGeneratorPy.nameLoop zeroStream "Lumber" usedL 8 () =
      SuppliersGeneratorPy.nameLoop zeroStream "Lumber" usedL 9 () := by
    conv_lhs => rw [SuppliersGeneratorPy.nameLoop]
    rw [dif_pos (show (8:ℕ) < 20 by norm_num)]
    with_unfolding_all rfl
  have h9 : SuppliersGeneratorPy.nameLoop zeroStream "Lumber" usedL 9 () =
      SuppliersGeneratorPy.nameLoop zeroStream "Lumber" usedL 10 () := by
    conv_lhs => rw [SuppliersGeneratorPy.nameLoop]
    rw [dif_pos (show (9:ℕ) < 20 by norm_num)]
    with_unfolding_all rfl
  have h10 : SuppliersGeneratorPy.nameLoop zeroStream "Lumber" usedL 10 () =
      ("Premier", "Premier Lumber Inc. #1", 11, ()) := by
    conv_lhs => rw [SuppliersGeneratorPy.nameLoop]
    rw [dif_pos (show (10:ℕ) < 20 by norm_num)]
    with_unfolding_all rfl
  rw [h0, h1, h2, h3, h4, h5, h6, h7, h8, h9, h10]

/-- Claim C5 (amended): from a valid stream, the name produced for a record
is always adjective + first category word + company-type suffix drawn from
the fixed lists; the loop makes at most 11 attempts, and the numeric-suffix
fallback (drawn from the same stream, value 1..999) triggers exactly when the
attempts counter reaches 11 with the composed base name already used — not
after 20 retries. -/
theorem name_retry_fallback {σ : Type} {next : σ → ℚ × σ} (hv : StreamValid next)
    (short : String) (used : SuppliersGeneratorPy.Used) (s : σ) :
    (SuppliersGeneratorPy.nameLoop next short used 0 s).2.2.1 ≤ 11 ∧
    ((∃ adj ∈ SuppliersGeneratorPy.adjectives,
      ∃ ts ∈ SuppliersGeneratorPy.company_types,
        (SuppliersGeneratorPy.nameLoop next short used 0 s).2.1 =
          adj ++ " " ++ short ++ " " ++ ts ∧
        used.contains ((SuppliersGeneratorPy.nameLoop next short used 0 s).2.1) =
          false) ∨
     (∃ adj ∈ SuppliersGeneratorPy.adjectives,
      ∃ ts ∈ SuppliersGeneratorPy.company_types, ∃ k2 : ℤ, 1 ≤ k2 ∧ k2 ≤ 999 ∧
        (SuppliersGeneratorPy.nameLoop next short used 0 s).2.1 =
          adj ++ " " ++ short ++ " " ++ ts ++ " #" ++ toString k2 ∧
        (SuppliersGeneratorPy.nameLoop next short used 0 s).2.2.1 = 11 ∧
        used.contains (adj ++ " " ++ short ++ " " ++ ts) = true)) :=
  SuppliersGeneratorPy.nameLoop_from hv short used 10 0 s rfl

/-- Witness for the amended C5 theorem on the all-zero stream. -/
theorem name_retry_fallback_witness :
    StreamValid zeroStream ∧
    ((SuppliersGeneratorPy.nameLoop zeroStream "Steel" Batteries.RBSet.empty 0 ()).2.2.1 ≤ 11 ∧
    ((∃ adj ∈ SuppliersGeneratorPy.adjectives,
      ∃ ts ∈ SuppliersGeneratorPy.company_types,
        (SuppliersGeneratorPy.nameLoop zeroStream "Steel" Batteries.RBSet.empty 0 ()).2.1 =
          adj ++ " " ++ "Steel" ++ " " ++ ts ∧
        (Batteries.RBSet.empty : SuppliersGeneratorPy.Used).contains
          ((SuppliersGeneratorPy.nameLoop zeroStream "Steel" Batteries.RBSet.empty 0 ()).2.1) =
          false) ∨
     (∃ adj ∈ SuppliersGeneratorPy.adjectives,
      ∃ ts ∈ SuppliersGeneratorPy.company_types, ∃ k2 : ℤ, 1 ≤ k2 ∧ k2 ≤ 999 ∧
        (SuppliersGeneratorPy.nameLoop zeroStream "Steel" Batteries.RBSet.empty 0 ()).2.1 =
          adj ++ " " ++ "Steel" ++ " " ++ ts ++ " #" ++ toString k2 ∧
        (SuppliersGeneratorPy.nameLoop zeroStream "Steel" Batteries.RBSet.empty 0 ()).2.2.1 = 11 ∧
        (Batteries.RBSet.empty : SuppliersGeneratorPy.Used).contains
          (adj ++ " " ++ "Steel" ++ " " ++ ts) = true))) :=
  ⟨streamValid_zeroStream,
   name_retry_fallback streamValid_zeroStream "Steel" Batteries.RBSet.empty ()⟩

/-!  Per-draw range facts shared by the app.py and backend records. -/

theorem ratingDraw_range {r : ℚ} (h0 : 0 ≤ r) (h1 : r < 1) :
    0 ≤ pyRound1 (r * 3/2 + 7/2) ∧ pyRound1 (r * 3/2 + 7/2) ≤ 5 := by
  have h := pyRound1_mem (show (7:ℚ)/2 ≤ r * 3/2 + 7/2 by linarith)
    (show r * 3/2 + 7/2 < 5 by linarith)
  exact ⟨by linarith [h.1], h.2⟩

theorem aiScoreDraw_range {r : ℚ} (h0 : 0 ≤ r) (h1 : r < 1) :
    0 ≤ pyInt (r * 30 + 70) ∧ pyInt (r * 30 + 70) ≤ 100 := by
  constructor
  · exact pyInt_nonneg (by linarith)
  · have h := pyInt_lt (show (0:ℚ) ≤ r * 30 + 70 by linarith)
      (show r * 30 + 70 < ((100:ℤ) : ℚ) by push_cast; linarith)
    omega

theorem yearsDraw_nonneg {r : ℚ} (h0 : 0 ≤ r) : 0 ≤ pyInt (r * 40 + 5) :=
  pyInt_nonneg (by linarith)

theorem projectsDraw_nonneg {r : ℚ} (h0 : 0 ≤ r) : 0 ≤ pyInt (r * 5000 + 100) :=
  pyInt_nonneg (by linarith)

/-- Claim C6: every record of the app.py generator and of the backend
generator satisfies 0 ≤ rating ≤ 5, 0 ≤ aiScore ≤ 100, yearsInBusiness ≥ 0
and projectsCompleted ≥ 0, for every valid draw stream. -/
theorem range_invariants {σ : Type} {next : σ → ℚ × σ} (hv : StreamValid next) :
    (∀ (hashOrd : String → ℕ) (s : σ),
      ∀ r ∈ AppPy.generate_seed_suppliers hashOrd next s,
        0 ≤ r.rating ∧ r.rating ≤ 5 ∧ 0 ≤ r.aiScore ∧ r.aiScore ≤ 100 ∧
        0 ≤ r.yearsInBusiness ∧ 0 ≤ r.projectsCompleted) ∧
    (∀ (s : σ), ∀ r ∈ (SuppliersGeneratorPy.generate_suppliers next s).1,
        0 ≤ r.rating ∧ r.rating ≤ 5 ∧ 0 ≤ r.aiScore ∧ r.aiScore ≤ 100 ∧
        0 ≤ r.yearsInBusiness ∧ 0 ≤ r.projectsCompleted) := by
  constructor
  · intro hashOrd s r hr
    refine @AppPy.catFold_forall σ hashOrd next
      (fun r => 0 ≤ r.rating ∧ r.rating ≤ 5 ∧ 0 ≤ r.aiScore ∧ r.aiScore ≤ 100 ∧
        0 ≤ r.yearsInBusiness ∧ 0 ≤ r.projectsCompleted)
      AppPy.product_categories ?_ 1 s r hr
    intro cat prods _ sid st
    obtain ⟨t1, h1⟩ := AppPy.genRecord_rating_eq hashOrd next cat prods sid st
    obtain ⟨t2, h2⟩ := AppPy.genRecord_aiScore_eq hashOrd next cat prods sid st
    obtain ⟨t3, h3⟩ := AppPy.genRecord_years_eq hashOrd next cat prods sid st
    obtain ⟨t4, h4⟩ := AppPy.genRecord_projects_eq hashOrd next cat prods sid st
    rw [h1, h2, h3, h4]
    exact ⟨(ratingDraw_range (hv t1).1 (hv t1).2).1,
      (ratingDraw_range (hv t1).1 (hv t1).2).2,
      (aiScoreDraw_range (hv t2).1 (hv t2).2).1,
      (aiScoreDraw_range (hv t2).1 (hv t2).2).2,
      yearsDraw_nonneg (hv t3).1, projectsDraw_nonneg (hv t4).1⟩
  · intro s r hr
    refine @SuppliersGeneratorPy.bk_catFold_forall σ next
      (fun r => 0 ≤ r.rating ∧ r.rating ≤ 5 ∧ 0 ≤ r.aiScore ∧ r.aiScore ≤ 100 ∧
        0 ≤ r.yearsInBusiness ∧ 0 ≤ r.projectsCompleted)
      SuppliersGeneratorPy.product_categories ?_ Batteries.RBSet.empty 1 s r hr
    intro cat prods _ used sid st
    obtain ⟨t1, h1⟩ := SuppliersGeneratorPy.bk_genRecord_rating_eq next cat prods used sid st
    obtain ⟨t2, h2⟩ := SuppliersGeneratorPy.bk_genRecord_aiScore_eq next cat prods used sid st
    obtain ⟨t3, h3⟩ := SuppliersGeneratorPy.bk_genRecord_years_eq next cat prods used sid st
    obtain ⟨t4, h4⟩ := SuppliersGeneratorPy.bk_genRecord_projects_eq next cat prods used sid st
    rw [h1, h2, h3, h4]
    exact ⟨(ratingDraw_range (hv t1).1 (hv t1).2).1,
      (ratingDraw_range (hv t1).1 (hv t1).2).2,
      (aiScoreDraw_range (hv t2).1 (hv t2).2).1,
      (aiScoreDraw_range (hv t2).1 (hv t2).2).2,
      yearsDraw_nonneg (hv t3).1, projectsDraw_nonneg (hv t4).1⟩

/-- Witness for C6 on the exact seeded CPython stream. -/
theorem range_invariants_witness :
    StreamValid mtRandom ∧
    ((∀ (hashOrd : String → ℕ) (s : MTState),
      ∀ r ∈ AppPy.generate_seed_suppliers hashOrd mtRandom s,
        0 ≤ r.rating ∧ r.rating ≤ 5 ∧ 0 ≤ r.aiScore ∧ r.aiScore ≤ 100 ∧
        0 ≤ r.yearsInBusiness ∧ 0 ≤ r.projectsCompleted) ∧
    (∀ (s : MTState), ∀ r ∈ (SuppliersGeneratorPy.generate_suppliers mtRandom s).1,
        0 ≤ r.rating ∧ r.rating ≤ 5 ∧ 0 ≤ r.aiScore ∧ r.aiScore ≤ 100 ∧
        0 ≤ r.yearsInBusiness ∧ 0 ≤ r.projectsCompleted)) :=
  ⟨streamValid_mtRandom, range_invariants streamValid_mtRandom⟩

/-- Claim C7: for every record, the products sequence is non-empty, has no
duplicate elements, and every element belongs to the configured product list
of the category the record carries (the table row it was generated from),
for the app.py generator and the backend generator alike. -/
theorem products_invariants {σ : Type} {next : σ → ℚ × σ} (hv : StreamValid next) :
    (∀ (hashOrd : String → ℕ) (s : σ),
      ∀ r ∈ AppPy.generate_seed_suppliers hashOrd next s,
        r.products ≠ [] ∧ r.products.Nodup ∧
        ∃ ps, (r.category, ps) ∈ AppPy.product_categories ∧
          ∀ p ∈ r.products, p ∈ ps) ∧
    (∀ (s : σ),
      ∀ r ∈ (SuppliersGeneratorPy.generate_suppliers next s).1,
        r.products ≠ [] ∧ r.products.Nodup ∧
        ∃ ps, (r.category, ps) ∈ SuppliersGeneratorPy.product_categories ∧
          ∀ p ∈ r.products, p ∈ ps) := by
  constructor
  · intro hashOrd s r hr
    refine @AppPy.catFold_forall σ hashOrd next
      (fun r => r.products ≠ [] ∧ r.products.Nodup ∧
        ∃ ps, (r.category, ps) ∈ AppPy.product_categories ∧
          ∀ p ∈ r.products, p ∈ ps)
      AppPy.product_categories ?_ 1 s r hr
    intro cat prods hmem sid st
    have hne : prods ≠ [] := by
      have htab : ∀ p ∈ AppPy.product_categories, p.2 ≠ [] := by decide
      exact htab (cat, prods) hmem
    obtain ⟨t, hp⟩ := AppPy.genRecord_products_eq hashOrd next cat prods sid st
    have hdrawn_ne :
        (AppPy.drawProducts next prods (pyInt ((next t).1 * 3) + 2).toNat (next t).2).1 ≠ [] := by
      have hlen := AppPy.drawProducts_length next prods
        (pyInt ((next t).1 * 3) + 2).toNat (next t).2
      have hn : 0 < (pyInt ((next t).1 * 3) + 2).toNat := by
        have := pyInt_nonneg (mul_nonneg (hv t).1 (by norm_num : (0:ℚ) ≤ 3))
        omega
      intro hc
      rw [hc] at hlen
      simp at hlen
      omega
    refine ⟨?_, ?_, ?_⟩
    · rw [hp]; exact pySetList_ne_nil hashOrd hdrawn_ne
    · rw [hp]; exact pySetList_nodup hashOrd _
    · refine ⟨prods, ?_, ?_⟩
      · rw [AppPy.genRecord_category]; exact hmem
      · intro p hpp
        rw [hp] at hpp
        exact AppPy.drawProducts_mem hv prods hne _ _ p (pySetList_subset hashOrd _ p hpp)
  · intro s r hr
    refine @SuppliersGeneratorPy.bk_catFold_forall σ next
      (fun r => r.products ≠ [] ∧ r.products.Nodup ∧
        ∃ ps, (r.category, ps) ∈ SuppliersGeneratorPy.product_categories ∧
          ∀ p ∈ r.products, p ∈ ps)
      SuppliersGeneratorPy.product_categories ?_ Batteries.RBSet.empty 1 s r hr
    intro cat prods hmem used sid st
    have hne : prods ≠ [] := by
      have htab : ∀ p ∈ SuppliersGeneratorPy.product_categories, p.2 ≠ [] := by decide
      exact htab (cat, prods) hmem
    obtain ⟨t, hp⟩ := SuppliersGeneratorPy.bk_genRecord_products_eq next cat prods used sid st
    have hn : 1 ≤ (pyInt ((next t).1 * 5) + 2).toNat := by
      have := pyInt_nonneg (mul_nonneg (hv t).1 (by norm_num : (0:ℚ) ≤ 5))
      omega
    refine ⟨?_, ?_, ?_⟩
    · rw [hp]
      exact SuppliersGeneratorPy.dedupDraw_ne_nil next prods _ _ hn
    · rw [hp]
      exact SuppliersGeneratorPy.dedupDraw_nodup next prods _ [] _ List.nodup_nil
    · refine ⟨prods, ?_, ?_⟩
      · rw [SuppliersGeneratorPy.bk_genRecord_category]; exact hmem
      · intro p hpp
        rw [hp] at hpp
        exact SuppliersGeneratorPy.dedupDraw_subset hv hne _ [] _
          (by intro x hx; simp at hx) p hpp

/-- Witness for C7 on the exact seeded CPython stream. -/
theorem products_invariants_witness :
    StreamValid mtRandom ∧
    ((∀ (hashOrd : String → ℕ) (s : MTState),
      ∀ r ∈ AppPy.generate_seed_suppliers hashOrd mtRandom s,
        r.products ≠ [] ∧ r.products.Nodup ∧
        ∃ ps, (r.category, ps) ∈ AppPy.product_categories ∧
          ∀ p ∈ r.products, p ∈ ps) ∧
    (∀ (s : MTState),
      ∀ r ∈ (SuppliersGeneratorPy.generate_suppliers mtRandom s).1,
        r.products ≠ [] ∧ r.products.Nodup ∧
        ∃ ps, (r.category, ps) ∈ SuppliersGeneratorPy.product_categories ∧
          ∀ p ∈ r.products, p ∈ ps)) :=
  ⟨streamValid_mtRandom, products_invariants streamValid_mtRandom⟩

/-- Claim C10: in generate_seed_suppliers every supplier name is one of only
10 possibilities per category — an adjective from the fixed 10-element list,
the first word of the category, and the constant suffix "Supply Inc." — so
the 50 records of the first category cannot all have distinct names: the name
list of the output restricted to the first 50 records always has a repeat. -/
theorem duplicate_names {σ : Type} {next : σ → ℚ × σ} (hv : StreamValid next)
    (hashOrd : String → ℕ) (s : σ) :
    (∀ r ∈ AppPy.generate_seed_suppliers hashOrd next s,
      ∃ adj ∈ AppPy.adjectives,
        r.name = adj ++ " " ++ firstWord r.category ++ " Supply Inc.") ∧
    ¬ (((AppPy.generate_seed_suppliers hashOrd next s).take 50).map
        (fun r => r.name)).Nodup := by
  have hadj_ne : AppPy.adjectives ≠ [] := by decide
  constructor
  · intro r hr
    refine @AppPy.catFold_forall σ hashOrd next
      (fun r => ∃ adj ∈ AppPy.adjectives,
        r.name = adj ++ " " ++ firstWord r.category ++ " Supply Inc.")
      AppPy.product_categories ?_ 1 s r hr
    intro cat prods _ sid st
    exact ⟨pyChoose AppPy.adjectives (next st).1 "",
      pyChoose_mem (hv st).1 (hv st).2 hadj_ne, rfl⟩
  · set L := (AppPy.catLoop hashOrd next "Lumber & Wood Products"
      ["2x4 Lumber", "Plywood", "Particle Board", "MDF", "Hardwood Flooring"]
      50 1 s).1 with hL
    have hgen : (AppPy.generate_seed_suppliers hashOrd next s).take 50 = L := by
      have hsplit : AppPy.generate_seed_suppliers hashOrd next s =
          L ++ (AppPy.catFold hashOrd next
            (AppPy.product_categories.drop 1)
            (AppPy.catLoop hashOrd next "Lumber & Wood Products"
              ["2x4 Lumber", "Plywood", "Particle Board", "MDF", "Hardwood Flooring"]
              50 1 s).2.1
            (AppPy.catLoop hashOrd next "Lumber & Wood Products"
              ["2x4 Lumber", "Plywood", "Particle Board", "MDF", "Hardwood Flooring"]
              50 1 s).2.2).1 := rfl
      rw [hsplit]
      exact List.take_left' (AppPy.catLoop_length hashOrd next _ _ 50 1 s)
    rw [hgen]
    intro hnd
    set allowed := AppPy.adjectives.map
      (fun a => a ++ " " ++ firstWord "Lumber & Wood Products" ++ " Supply Inc.")
      with hallowed
    have hsub : ∀ x ∈ L.map (fun r => r.name), x ∈ allowed := by
      intro x hx
      obtain ⟨r, hrL, hrx⟩ := List.mem_map.mp hx
      have hform : ∃ adj ∈ AppPy.adjectives,
          r.name = adj ++ " " ++ firstWord "Lumber & Wood Products" ++ " Supply Inc." := by
        refine @AppPy.catLoop_forall σ hashOrd next "Lumber & Wood Products"
          ["2x4 Lumber", "Plywood", "Particle Board", "MDF", "Hardwood Flooring"]
          (fun r => ∃ adj ∈ AppPy.adjectives,
            r.name = adj ++ " " ++ firstWord "Lumber & Wood Products" ++ " Supply Inc.")
          ?_ 50 1 s r hrL
        intro sid st
        exact ⟨pyChoose AppPy.adjectives (next st).1 "",
          pyChoose_mem (hv st).1 (hv st).2 hadj_ne, rfl⟩
      obtain ⟨adj, hadjm, hname⟩ := hform
      rw [hallowed]
      exact List.mem_map.mpr ⟨adj, hadjm, by rw [← hrx, hname]⟩
    have hlen : (L.map (fun r => r.name)).length = 50 := by
      rw [List.length_map, hL, AppPy.catLoop_length]
    have h1 : (L.map (fun r => r.name)).toFinset.card = 50 := by
      rw [List.toFinset_card_of_nodup hnd, hlen]
    have h2 : (L.map (fun r => r.name)).toFinset ⊆ allowed.toFinset := by
      intro x hx
      exact List.mem_toFinset.mpr (hsub x (List.mem_toFinset.mp hx))
    have h3 := Finset.card_le_card h2
    have h4 := allowed.toFinset_card_le
    have h5 : allowed.length = 10 := by rw [hallowed, List.length_map]; rfl
    omega

/-- Witness for C10 on the all-zero stream with the insertion set-order. -/
theorem duplicate_names_witness :
    StreamValid zeroStream ∧
    ((∀ r ∈ AppPy.generate_seed_suppliers hashOrdA zeroStream (),
      ∃ adj ∈ AppPy.adjectives,
        r.name = adj ++ " " ++ firstWord r.category ++ " Supply Inc.") ∧
    ¬ (((AppPy.generate_seed_suppliers hashOrdA zeroStream ()).take 50).map
        (fun r => r.name)).Nodup) :=
  ⟨streamValid_zeroStream, duplicate_names streamValid_zeroStream hashOrdA ()⟩
